import Mathlib

/-!
# PROXY protocol codec of `lib/multiplexer/proxyline.go`

A shallow embedding of the HAProxy PROXY-protocol reader and writer
(versions 1 and 2) and theorems about it.

Modelling conventions:

* a Go `byte` is a `Fin 256`; a Go `string` and a Go `[]byte` are lists of
  bytes, the nil slice being the empty list;
* a `*bufio.Reader` is the list of bytes that are still unread; every read
  returns its result together with the bytes left unread, and the end of the
  list is the end of the stream (`io.EOF`);
* a Go `int` is an `Int`, a `uint16` a `Nat` below `65536`;
* a returned `(*ProxyLine, error)` is an `Except Error (Option ProxyLine)`,
  where `.ok none` is the pair `(nil, nil)`.
-/

namespace Multiplexer

/-! ## Bytes, strings and addresses -/

/-- A Go `byte`. -/
abbrev Byte := Fin 256

/-- A Go `string`: an immutable sequence of bytes. -/
abbrev GoString := List Byte

/-- The bytes of an ASCII literal. -/
def str (s : String) : GoString :=
  s.toList.map fun c => Fin.ofNat c.toNat

/-- The constant `TCP4`. -/
def TCP4 : GoString := str "TCP4"

/-- The constant `TCP6`. -/
def TCP6 : GoString := str "TCP6"

/-- The constant `UNKNOWN`. -/
def UNKNOWN : GoString := str "UNKNOWN"

/-- Go's `net.TCPAddr`. -/
structure TCPAddr where
  IP : List Byte
  Port : Int
  Zone : GoString := []
  deriving DecidableEq, Repr

/-- The struct `ProxyLine`. -/
structure ProxyLine where
  Protocol : GoString
  Source : TCPAddr
  Destination : TCPAddr
  deriving DecidableEq, Repr

/-- The errors of the two readers, one constructor per failing return of the
source. -/
inductive Error where
  /-- A read of the stream failed: `trace.Wrap(err)` of an `io` error. -/
  | readError
  /-- The message "expected CRLF in proxy protocol, got something else". -/
  | expectedCRLF
  /-- The message "malformed PROXY line protocol string". -/
  | malformedLine
  /-- The message "failed to parse address". -/
  | failedToParseAddress
  /-- The message "got IPV4 address ... for IPV6 proto ...". -/
  | gotIPV4ForIPV6Proto
  /-- The message "got IPV6 address ... for IPV4 proto ...". -/
  | gotIPV6ForIPV4Proto
  /-- The message "bad port ...". -/
  | badPort
  /-- The message "port ... not in supported range [0...65535]". -/
  | portNotInRange
  /-- The message "unrecognized signature ...". -/
  | unrecognizedSignature
  /-- The message "unsupported version ...". -/
  | unsupportedVersion (ver : Nat)
  /-- The message "unsupported command ...". -/
  | unsupportedCommand (cmd : Nat)
  /-- The message "unsupported protocol ...". -/
  | unsupportedProtocol (proto : Nat)
  deriving DecidableEq, Repr

/-- Equality of two Go results is decidable. -/
instance instDecidableEqExcept {ε α : Type} [DecidableEq ε] [DecidableEq α] :
    DecidableEq (Except ε α)
  | .ok a, .ok b =>
    if h : a = b then isTrue (by rw [h]) else isFalse (fun h2 => h (Except.ok.inj h2))
  | .error a, .error b =>
    if h : a = b then isTrue (by rw [h]) else isFalse (fun h2 => h (Except.error.inj h2))
  | .ok _, .error _ => isFalse (fun h => by cases h)
  | .error _, .ok _ => isFalse (fun h => by cases h)

/-- The length of an IPv4 address, `net.IPv4len`. -/
def IPv4len : Nat := 4

/-- The length of an IPv6 address, `net.IPv6len`. -/
def IPv6len : Nat := 16

/-- The 12-byte prefix of an IPv4 address held in 16 bytes, `net.v4InV6Prefix`. -/
def v4InV6Prefix : List Byte := [0, 0, 0, 0, 0, 0, 0, 0, 0, 0, 0xff, 0xff]

/-- Go's `net.IPv4`: the 16-byte form of the IPv4 address `a.b.c.d`. -/
def IPv4 (a b c d : Byte) : List Byte := v4InV6Prefix ++ [a, b, c, d]

/-- Go's `IP.To4`: the 4-byte form of an IPv4 address, nil (the empty list)
when the address is not an IPv4 address. -/
def To4 (ip : List Byte) : List Byte :=
  if ip.length = IPv4len then ip
  else if ip.length = IPv6len ∧ ip.take 12 = v4InV6Prefix then ip.drop 12
  else []

/-- Go's `IP.To16`: the 16-byte form of an address, nil (the empty list) when
the address has neither 4 nor 16 bytes. -/
def To16 (ip : List Byte) : List Byte :=
  if ip.length = IPv4len then v4InV6Prefix ++ ip
  else if ip.length = IPv6len then ip
  else []

/-- Go's `copy` into a zeroed array of `n` bytes: the first `n` bytes of `src`,
the rest of the array staying zero. -/
def copyArray (n : Nat) (src : List Byte) : List Byte :=
  src.take n ++ List.replicate (n - src.length) 0

/-- The two bytes of a `uint16` in big-endian order. -/
def putUint16 (v : Nat) : List Byte := [Fin.ofNat (v / 256), Fin.ofNat v]

/-- The `uint16` held by two bytes in big-endian order. -/
def getUint16 (hi lo : Byte) : Nat := hi.val * 256 + lo.val

/-- The conversion `uint16(x)` of a Go `int`. -/
def toUint16 (x : Int) : Nat := (x % 65536).toNat

/-! ## The stream -/

/-- Go's `io.ReadFull` of `n` bytes from the reader: the bytes and the unread
rest, or no bytes when the stream ends first (everything was consumed). -/
def readFull (n : Nat) (reader : List Byte) : Option (List Byte) × List Byte :=
  if n ≤ reader.length then (some (reader.take n), reader.drop n) else (none, [])

/-- Go's `io.CopyN(io.Discard, reader, n)`: whether `n` bytes were discarded,
and the unread rest. -/
def discardN (n : Nat) (reader : List Byte) : Bool × List Byte :=
  if n ≤ reader.length then (true, reader.drop n) else (false, [])

/-! ## Version 2 -/

/-- The struct `proxyV2Header`. -/
structure proxyV2Header where
  Signature : List Byte
  VersionCommand : Byte
  Protocol : Byte
  Length : Nat
  deriving DecidableEq, Repr

/-- The struct `proxyV2Address4` and the struct `proxyV2Address6`, which differ
in the length of the two addresses only. -/
structure proxyV2Address where
  Source : List Byte
  Destination : List Byte
  SourcePort : Nat
  DestinationPort : Nat
  deriving DecidableEq, Repr

def Version2 : Nat := 2
def ProxyCommand : Nat := 1
def LocalCommand : Nat := 0
def ProtocolTCP4 : Byte := 0x11
def ProtocolTCP6 : Byte := 0x21

/-- The size in bytes of `proxyV2Header`. -/
def headerSize : Nat := 16

/-- The size in bytes of `proxyV2Address4`. -/
def sizeAddress4 : Nat := 12

/-- The size in bytes of `proxyV2Address6`. -/
def sizeAddress6 : Nat := 36

/-- The bytes `binary.Write(b, binary.BigEndian, header)` appends. -/
def writeHeader (h : proxyV2Header) : List Byte :=
  h.Signature ++ [h.VersionCommand, h.Protocol] ++ putUint16 h.Length

/-- The bytes `binary.Write(b, binary.BigEndian, addr)` appends for an address
block. -/
def writeAddress (a : proxyV2Address) : List Byte :=
  a.Source ++ a.Destination ++ putUint16 a.SourcePort ++ putUint16 a.DestinationPort

/-- The header `binary.Read` decodes from 16 bytes; only the first 16 bytes of
`b` are looked at. -/
def decodeHeader (b : List Byte) : proxyV2Header :=
  { Signature := b.take 12
    VersionCommand := b.getD 12 0
    Protocol := b.getD 13 0
    Length := getUint16 (b.getD 14 0) (b.getD 15 0) }

/-- The address block `binary.Read` decodes from `2 * n + 4` bytes, `n` being
the length of an address. -/
def decodeAddress (n : Nat) (b : List Byte) : proxyV2Address :=
  { Source := b.take n
    Destination := (b.drop n).take n
    SourcePort := getUint16 (b.getD (2 * n) 0) (b.getD (2 * n + 1) 0)
    DestinationPort := getUint16 (b.getD (2 * n + 2) 0) (b.getD (2 * n + 3) 0) }

/-- The method `ProxyLine.Bytes`, the signature `proxyV2Prefix` being a
parameter. For a Protocol other than TCP4 and TCP6 the address value stays a
nil interface, which `encoding/binary` cannot encode: the model gives no
output there. -/
def Bytes (sig : List Byte) (p : ProxyLine) : Option (List Byte) :=
  let header : proxyV2Header :=
    { Signature := copyArray 12 sig
      VersionCommand := Fin.ofNat (Version2 * 16 + ProxyCommand)
      Protocol := 0
      Length := 0 }
  if p.Protocol = TCP4 then
    let addr4 : proxyV2Address :=
      { SourcePort := toUint16 p.Source.Port
        DestinationPort := toUint16 p.Destination.Port
        Source := copyArray 4 (To4 p.Source.IP)
        Destination := copyArray 4 (To4 p.Destination.IP) }
    some (writeHeader { header with Protocol := ProtocolTCP4, Length := sizeAddress4 }
      ++ writeAddress addr4)
  else if p.Protocol = TCP6 then
    let addr6 : proxyV2Address :=
      { SourcePort := toUint16 p.Source.Port
        DestinationPort := toUint16 p.Destination.Port
        Source := copyArray 16 (To16 p.Source.IP)
        Destination := copyArray 16 (To16 p.Destination.IP) }
    some (writeHeader { header with Protocol := ProtocolTCP6, Length := sizeAddress6 }
      ++ writeAddress addr6)
  else none

/-- The result of a reader call: what Go returns, and the bytes left unread. -/
abbrev ReadResult := Except Error (Option ProxyLine) × List Byte

/-- The address block of the PROXY command: read `2 * n + 4` bytes, build the
line, then skip what the declared length holds beyond the block. -/
def readAddressBlock (proto : GoString) (n : Nat) (length : Nat) (reader : List Byte) :
    ReadResult :=
  let size := 2 * n + 4
  match readFull size reader with
  | (none, rest) => (.error .readError, rest)
  | (some b, rest) =>
    let addr := decodeAddress n b
    let ret : ProxyLine :=
      { Protocol := proto
        Source := { IP := addr.Source, Port := (addr.SourcePort : Int) }
        Destination := { IP := addr.Destination, Port := (addr.DestinationPort : Int) } }
    if length > size then
      match discardN (length - size) rest with
      | (false, rest2) => (.error .readError, rest2)
      | (true, rest2) => (.ok (some ret), rest2)
    else (.ok (some ret), rest)

/-- The part of `ReadProxyLineV2` that follows the read of the fixed header:
the checks of the signature, the version and the command, then the address
block. -/
def readAfterHeader (sig : List Byte) (header : proxyV2Header) (rest : List Byte) :
    ReadResult :=
  if header.Signature ≠ sig then (.error .unrecognizedSignature, rest)
  else if header.VersionCommand.val / 16 ≠ Version2 then
    (.error (.unsupportedVersion (header.VersionCommand.val / 16)), rest)
  else if header.VersionCommand.val % 16 = LocalCommand then
    if header.Length > 0 then
      match discardN header.Length rest with
      | (false, rest2) => (.error .readError, rest2)
      | (true, rest2) => (.ok none, rest2)
    else (.ok none, rest)
  else if header.VersionCommand.val % 16 ≠ ProxyCommand then
    (.error (.unsupportedCommand (header.VersionCommand.val % 16)), rest)
  else if header.Protocol = ProtocolTCP4 then
    readAddressBlock TCP4 4 header.Length rest
  else if header.Protocol = ProtocolTCP6 then
    readAddressBlock TCP6 16 header.Length rest
  else (.error (.unsupportedProtocol header.Protocol.val), rest)

/-- The function `ReadProxyLineV2`, the signature `proxyV2Prefix` being a
parameter: `cmd` is `header.VersionCommand % 16` and `ver` is
`header.VersionCommand / 16`. -/
def ReadProxyLineV2 (sig : List Byte) (reader : List Byte) : ReadResult :=
  match readFull headerSize reader with
  | (none, rest) => (.error .readError, rest)
  | (some b, rest) => readAfterHeader sig (decodeHeader b) rest

/-- Modelled from the spec: the constant `proxyV2Prefix`, declared outside
`proxyline.go`, is the fixed 12-byte PROXY-v2 magic sequence; the bytes are
those of the PROXY protocol document. -/
def proxyV2Prefix : List Byte :=
  [0x0D, 0x0A, 0x0D, 0x0A, 0x00, 0x0D, 0x0A, 0x51, 0x55, 0x49, 0x54, 0x0A]

/-! ## Standard-library text functions used by version 1 -/

/-- Go's `(*bufio.Reader).ReadString`: the bytes up to and including the first
`delim` and the unread rest, or no line when the stream ends before a `delim`
(everything was consumed). -/
def ReadString (delim : Byte) : List Byte → Option GoString × List Byte
  | [] => (none, [])
  | b :: rest =>
    if b = delim then (some [b], rest)
    else
      match ReadString delim rest with
      | (some line, rest2) => (some (b :: line), rest2)
      | (none, rest2) => (none, rest2)

/-- Go's `strings.HasSuffix`. -/
def HasSuffix (s suffix : GoString) : Bool :=
  decide (suffix.length ≤ s.length ∧ s.drop (s.length - suffix.length) = suffix)

/-- Go's `strings.Split` for a separator of one byte. -/
def Split (sep : Byte) : GoString → List GoString
  | [] => [[]]
  | b :: s =>
    if b = sep then [] :: Split sep s
    else
      match Split sep s with
      | [] => [[b]]
      | t :: ts => (b :: t) :: ts

/-- The value of a run of decimal digits, none when a byte is not a digit. -/
def digitsValue : Nat → GoString → Option Nat
  | n, [] => some n
  | n, b :: s =>
    if 48 ≤ b.val ∧ b.val ≤ 57 then digitsValue (n * 10 + (b.val - 48)) s else none

/-- Go's `strconv.Atoi` on a 64-bit platform: an optional sign and at least
one decimal digit, the value fitting an `int`; none stands for the error. -/
def Atoi (s : GoString) : Option Int :=
  let neg : Bool := s.head? = some 45
  let digits : GoString := if s.head? = some 45 ∨ s.head? = some 43 then s.tail else s
  if digits = [] then none
  else
    match digitsValue 0 digits with
    | none => none
    | some n =>
      let v : Int := if neg then -(n : Int) else (n : Int)
      if v < -9223372036854775808 ∨ 9223372036854775807 < v then none else some v

/-- The bound `big` of the number scanners of package `net`. -/
def big : Nat := 0xFFFFFF

/-- The loop of `net.dtoi`: `n` is the value so far and `i` the number of
digits read. -/
def dtoiLoop : Nat → Nat → GoString → Nat × Nat × Bool
  | n, i, [] => if i = 0 then (0, 0, false) else (n, i, true)
  | n, i, b :: s =>
    if 48 ≤ b.val ∧ b.val ≤ 57 then
      if n * 10 + (b.val - 48) ≥ big then (big, i, false)
      else dtoiLoop (n * 10 + (b.val - 48)) (i + 1) s
    else if i = 0 then (0, 0, false) else (n, i, true)

/-- Go's `net.dtoi`: the decimal number at the start of `s`, the number of
bytes it takes, and whether there is one. -/
def dtoi (s : GoString) : Nat × Nat × Bool := dtoiLoop 0 0 s

/-- The value of a hexadecimal digit, none for any other byte. -/
def hexValue (b : Byte) : Option Nat :=
  if 48 ≤ b.val ∧ b.val ≤ 57 then some (b.val - 48)
  else if 97 ≤ b.val ∧ b.val ≤ 102 then some (b.val - 97 + 10)
  else if 65 ≤ b.val ∧ b.val ≤ 70 then some (b.val - 65 + 10)
  else none

/-- The loop of `net.xtoi`. -/
def xtoiLoop : Nat → Nat → GoString → Nat × Nat × Bool
  | n, i, [] => if i = 0 then (0, i, false) else (n, i, true)
  | n, i, b :: s =>
    match hexValue b with
    | some d =>
      if n * 16 + d ≥ big then (0, i, false) else xtoiLoop (n * 16 + d) (i + 1) s
    | none => if i = 0 then (0, i, false) else (n, i, true)

/-- Go's `net.xtoi`: the hexadecimal number at the start of `s`, the number of
bytes it takes, and whether there is one. -/
def xtoi (s : GoString) : Nat × Nat × Bool := xtoiLoop 0 0 s

/-- The loop of `net.parseIPv4` over the octets that are still to be read;
`first` holds for the first octet, which no dot precedes. -/
def parseIPv4Loop : Nat → Bool → GoString → Option (List Byte × GoString)
  | 0, _, s => some ([], s)
  | k + 1, first, s =>
    if s.length = 0 then none
    else if !first && s.head? ≠ some 46 then none
    else
      let s1 := if first then s else s.tail
      match dtoi s1 with
      | (n, c, ok) =>
        if !ok || n > 0xFF then none
        else if c > 1 && s1.head? = some 48 then none
        else
          match parseIPv4Loop k false (s1.drop c) with
          | none => none
          | some (p, rest) => some (Fin.ofNat n :: p, rest)

/-- Go's `net.parseIPv4`: the 16-byte form of a dotted-decimal address, nil
when the text is not one. -/
def parseIPv4 (s : GoString) : List Byte :=
  match parseIPv4Loop 4 true s with
  | some (p, []) => v4InV6Prefix ++ p
  | _ => []

/-- The loop of `net.parseIPv6`: `ip` holds the bytes written so far (their
number is the index `i` of the source), `ellipsis` the position of "::" if one
was met. The result is the state when the loop ends, none when the source
returns nil. The first argument bounds the number of iterations, of which
there are at most eight. -/
def parseIPv6Loop : Nat → List Byte → GoString → Option Nat →
    Option (List Byte × GoString × Option Nat)
  | 0, _, _, _ => none
  | fuel + 1, ip, s, ellipsis =>
    if ¬ ip.length < IPv6len then some (ip, s, ellipsis)
    else
      match xtoi s with
      | (n, c, ok) =>
        if !ok || n > 0xFFFF then none
        else if c < s.length ∧ s.get? c = some 46 then
          if ellipsis = none ∧ ip.length ≠ IPv6len - IPv4len then none
          else if ip.length + IPv4len > IPv6len then none
          else
            match parseIPv4 s with
            | [] => none
            | ip4 => some (ip ++ ip4.drop 12, [], ellipsis)
        else
          let ip2 := ip ++ [Fin.ofNat (n / 256), Fin.ofNat n]
          let s2 := s.drop c
          if s2.length = 0 then some (ip2, s2, ellipsis)
          else if s2.head? ≠ some 58 ∨ s2.length = 1 then none
          else
            let s3 := s2.tail
            if s3.head? = some 58 then
              if ellipsis.isSome then none
              else if s3.tail.length = 0 then some (ip2, s3.tail, some ip2.length)
              else parseIPv6Loop fuel ip2 s3.tail (some ip2.length)
            else parseIPv6Loop fuel ip2 s3 ellipsis

/-- The end of `net.parseIPv6`, after its loop: the whole text must be used,
and the "::" stands for the missing zero bytes. -/
def parseIPv6Finish : List Byte × GoString × Option Nat → List Byte
  | (ip, s, ellipsis) =>
    if s.length ≠ 0 then []
    else if ip.length < IPv6len then
      match ellipsis with
      | none => []
      | some e => ip.take e ++ List.replicate (IPv6len - ip.length) 0 ++ ip.drop e
    else if ellipsis.isSome then []
    else ip

/-- Go's `net.parseIPv6`: the 16 bytes of an IPv6 literal, nil when the text
is not one. -/
def parseIPv6 (s : GoString) : List Byte :=
  if s.length ≥ 2 ∧ s.get? 0 = some 58 ∧ s.get? 1 = some 58 then
    if (s.drop 2).length = 0 then List.replicate IPv6len 0
    else
      match parseIPv6Loop 9 [] (s.drop 2) (some 0) with
      | none => []
      | some st => parseIPv6Finish st
  else
    match parseIPv6Loop 9 [] s none with
    | none => []
    | some st => parseIPv6Finish st

/-- The scan of `net.ParseIP` for the first dot or colon. -/
def ParseIPScan (s : GoString) : GoString → List Byte
  | [] => []
  | b :: t =>
    if b = 46 then parseIPv4 s
    else if b = 58 then parseIPv6 s
    else ParseIPScan s t

/-- Go's `net.ParseIP`: the 16-byte form of the address a text denotes, nil
(the empty list) when the text is not an address. The model follows the
scanner of package `net`: `parseIPv4` for a text whose first dot comes before
any colon, `parseIPv6` for a text whose first colon comes before any dot. -/
def ParseIP (s : GoString) : List Byte := ParseIPScan s s

/-- The decimal text of a natural number. -/
def formatNat (n : Nat) : GoString :=
  (Nat.toDigits 10 n).map fun c => Fin.ofNat c.toNat

/-- The text the verb `%d` of `fmt.Sprintf` gives for a Go `int`. -/
def formatInt (x : Int) : GoString :=
  if x < 0 then 45 :: formatNat (-x).toNat else formatNat x.toNat

/-- The lower-case hexadecimal text of a number without leading zeros, as
`net.appendHex` writes it. -/
def appendHex (n : Nat) : GoString :=
  (Nat.toDigits 16 n).map fun c => Fin.ofNat c.toNat

/-- The inner loop of `IP.String`: the end of the run of zero groups that
starts at index `j`. -/
def zeroRunEnd (p : List Byte) : Nat → Nat → Nat
  | 0, j => j
  | fuel + 1, j =>
    if j < IPv6len ∧ p.getD j 0 = 0 ∧ p.getD (j + 1) 0 = 0 then zeroRunEnd p fuel (j + 2)
    else j

/-- The first loop of `IP.String`: the longest run of zero groups, from index
`e0` to index `e1`, both `-1` when there is none. -/
def longestZeroRun (p : List Byte) : Nat → Nat → Int → Int → Int × Int
  | 0, _, e0, e1 => (e0, e1)
  | fuel + 1, i, e0, e1 =>
    if i < IPv6len then
      if zeroRunEnd p 8 i > i ∧ ((zeroRunEnd p 8 i : Int) - (i : Int)) > e1 - e0 then
        longestZeroRun p fuel (zeroRunEnd p 8 i + 2) (i : Int) (zeroRunEnd p 8 i : Int)
      else longestZeroRun p fuel (i + 2) e0 e1
    else (e0, e1)

/-- The second loop of `IP.String`: the groups from index `i` on, with "::" in
place of the run of zeros from `e0` to `e1`. -/
def printGroups (p : List Byte) (e0 e1 : Int) : Nat → Nat → GoString
  | 0, _ => []
  | fuel + 1, i =>
    if i < IPv6len then
      if (i : Int) = e0 then
        if e1.toNat ≥ IPv6len then [58, 58]
        else
          [58, 58] ++ appendHex ((p.getD e1.toNat 0).val * 256 + (p.getD (e1.toNat + 1) 0).val)
            ++ printGroups p e0 e1 fuel (e1.toNat + 2)
      else
        (if i > 0 then [58] else [])
          ++ appendHex ((p.getD i 0).val * 256 + (p.getD (i + 1) 0).val)
          ++ printGroups p e0 e1 fuel (i + 2)
    else []

/-- The text `hexString` gives: two lower-case hexadecimal digits per byte. -/
def hexString (b : List Byte) : GoString :=
  b.flatMap fun x => [(str "0123456789abcdef").getD (x.val / 16) 0,
    (str "0123456789abcdef").getD (x.val % 16) 0]

/-- Go's `IP.String`: the dotted-decimal text of an IPv4 address, the RFC 5952
text of any other 16-byte address. -/
def IPString (ip : List Byte) : GoString :=
  if ip.length = 0 then str "<nil>"
  else if (To4 ip).length = IPv4len then
    formatNat ((To4 ip).getD 0 0).val ++ [46] ++ formatNat ((To4 ip).getD 1 0).val ++ [46]
      ++ formatNat ((To4 ip).getD 2 0).val ++ [46] ++ formatNat ((To4 ip).getD 3 0).val
  else if ip.length ≠ IPv6len then 63 :: hexString ip
  else
    match longestZeroRun ip 8 0 (-1) (-1) with
    | (e0, e1) =>
      if e1 - e0 ≤ 2 then printGroups ip (-1) (-1) 8 0 else printGroups ip e0 e1 8 0

/-! ## Version 1 -/

/-- The variable `proxyCRLF`. -/
def proxyCRLF : GoString := [13, 10]

/-- The variable `proxySep`, a string of one byte. -/
def proxySep : Byte := 32

/-- The method `ProxyLine.String`. -/
def ProxyLine.String (p : ProxyLine) : GoString :=
  str "PROXY " ++ p.Protocol ++ [32] ++ IPString p.Source.IP ++ [32]
    ++ IPString p.Destination.IP ++ [32] ++ formatInt p.Source.Port ++ [32]
    ++ formatInt p.Destination.Port ++ [13, 10]

/-- The function `parsePortNumber`. -/
def parsePortNumber (portString : GoString) : Except Error Int :=
  match Atoi portString with
  | none => .error .badPort
  | some port =>
    if port < 0 ∨ port > 65535 then .error .portNotInRange else .ok port

/-- The function `parseIP`. -/
def parseIP (protocol : GoString) (addrString : GoString) : Except Error (List Byte) :=
  let addr := ParseIP addrString
  if addr.length = 0 then .error .failedToParseAddress
  else if To4 addr ≠ [] ∧ protocol ≠ TCP4 then .error .gotIPV4ForIPV6Proto
  else if To4 addr = [] ∧ protocol = TCP6 then .error .gotIPV6ForIPV4Proto
  else .ok addr

/-- The part of `ReadProxyLine` that follows the check of the number of
tokens. -/
def parseTokens (tokens : List GoString) : Except Error (Option ProxyLine) :=
  let protocol : GoString :=
    if tokens.getD 1 [] = TCP4 then TCP4
    else if tokens.getD 1 [] = TCP6 then TCP6
    else UNKNOWN
  match parseIP protocol (tokens.getD 2 []) with
  | .error e => .error e
  | .ok sourceIP =>
    match parseIP protocol (tokens.getD 3 []) with
    | .error e => .error e
    | .ok destIP =>
      match parsePortNumber (tokens.getD 4 []) with
      | .error e => .error e
      | .ok sourcePort =>
        match parsePortNumber (tokens.getD 5 []) with
        | .error e => .error e
        | .ok destPort =>
          .ok (some
            { Protocol := protocol
              Source := { IP := sourceIP, Port := sourcePort }
              Destination := { IP := destIP, Port := destPort } })

/-- The function `ReadProxyLine`. -/
def ReadProxyLine (reader : List Byte) : ReadResult :=
  match ReadString 10 reader with
  | (none, rest) => (.error .readError, rest)
  | (some line, rest) =>
    if !HasSuffix line proxyCRLF then (.error .expectedCRLF, rest)
    else
      let tokens := Split proxySep (line.take (line.length - 2))
      if tokens.length < 6 then (.error .malformedLine, rest)
      else (parseTokens tokens, rest)

/-! ## Texts of the tokens of a line -/

/-- The dotted-decimal text of the IPv4 address `a.b.c.d`. -/
def dottedDecimal (a b c d : Byte) : GoString :=
  formatNat a.val ++ [46] ++ formatNat b.val ++ [46] ++ formatNat c.val ++ [46]
    ++ formatNat d.val

/-! ## Streams and lines used as examples -/

/-- A version 2 stream whose header declares the length 0 for a PROXY command
over TCP4: the header, an address block of 12 bytes, and two more bytes. -/
def shortLengthStream : List Byte :=
  proxyV2Prefix ++ [0x21, 0x11, 0, 0] ++ [1, 2, 3, 4, 5, 6, 7, 8, 0, 1, 0, 2] ++ [9, 9]

/-- A TCP6 line from fe80::1 port 443 to fe80::2 port 1080. -/
def tcp6Line : ProxyLine :=
  { Protocol := TCP6
    Source := { IP := [0xfe, 0x80, 0, 0, 0, 0, 0, 0, 0, 0, 0, 0, 0, 0, 0, 1], Port := 443 }
    Destination := { IP := [0xfe, 0x80, 0, 0, 0, 0, 0, 0, 0, 0, 0, 0, 0, 0, 0, 2], Port := 1080 } }

/-- A TCP4 line from 192.168.1.1 port 443 to 10.0.0.1 port 1080. -/
def tcp4Line : ProxyLine :=
  { Protocol := TCP4
    Source := { IP := [192, 168, 1, 1], Port := 443 }
    Destination := { IP := [10, 0, 0, 1], Port := 1080 } }

/-! ## Lemmas on the stream and on the version 2 layout -/

theorem readFull_of_le (n : Nat) (reader : List Byte) (h : n ≤ reader.length) :
    readFull n reader = (some (reader.take n), reader.drop n) := by
  simp [readFull, h]

theorem discardN_of_le (n : Nat) (reader : List Byte) (h : n ≤ reader.length) :
    discardN n reader = (true, reader.drop n) := by
  simp [discardN, h]

theorem ReadProxyLineV2_of_le (sig reader : List Byte) (h : 16 ≤ reader.length) :
    ReadProxyLineV2 sig reader
      = readAfterHeader sig (decodeHeader (reader.take 16)) (reader.drop 16) := by
  simp [ReadProxyLineV2, headerSize, readFull_of_le 16 reader h]

theorem getUint16_putUint16 (v : Nat) (h : v < 65536) :
    getUint16 (Fin.ofNat (v / 256)) (Fin.ofNat v) = v := by
  simp only [getUint16, Fin.ofNat]
  omega

theorem decodeHeader_writeHeader (h : proxyV2Header) (hs : h.Signature.length = 12)
    (hl : h.Length < 65536) : decodeHeader (writeHeader h) = h := by
  obtain ⟨sg, vc, pr, len⟩ := h
  simp only at hs hl
  simp only [decodeHeader, writeHeader, putUint16]
  have e1 : (sg ++ [vc, pr] ++ [Fin.ofNat (len / 256), Fin.ofNat len])
      = sg ++ [vc, pr, Fin.ofNat (len / 256), Fin.ofNat len] := by simp
  rw [e1]
  have t : List.take 12 (sg ++ [vc, pr, Fin.ofNat (len / 256), Fin.ofNat len]) = sg := by
    rw [← hs]; simp
  have g : ∀ i d, (sg ++ [vc, pr, Fin.ofNat (len / 256), Fin.ofNat len]).getD (12 + i) d
      = [vc, pr, Fin.ofNat (len / 256), Fin.ofNat len].getD i d := by
    intro i d
    rw [← hs, List.getD_append_right _ _ _ _ (by omega)]
    simp
  have g0 := g 0; have g1 := g 1; have g2 := g 2; have g3 := g 3
  simp only [Nat.add_zero, Nat.reduceAdd] at g0 g1 g2 g3
  rw [t, g0, g1, g2, g3]
  simp [getUint16_putUint16 len hl]

theorem decodeAddress_writeAddress (n : Nat) (a : proxyV2Address)
    (hs : a.Source.length = n) (hd : a.Destination.length = n)
    (hsp : a.SourcePort < 65536) (hdp : a.DestinationPort < 65536) :
    decodeAddress n (writeAddress a) = a := by
  obtain ⟨src, dst, sp, dp⟩ := a
  simp only at hs hd hsp hdp
  simp only [decodeAddress, writeAddress, putUint16]
  have e1 : src ++ dst ++ [Fin.ofNat (sp / 256), Fin.ofNat sp]
        ++ [Fin.ofNat (dp / 256), Fin.ofNat dp]
      = src ++ (dst ++ [Fin.ofNat (sp / 256), Fin.ofNat sp, Fin.ofNat (dp / 256), Fin.ofNat dp]) := by
    simp
  rw [e1]
  have t1 : List.take n (src ++ (dst ++ [Fin.ofNat (sp / 256), Fin.ofNat sp,
      Fin.ofNat (dp / 256), Fin.ofNat dp])) = src := by
    rw [← hs]; simp
  have t2 : List.drop n (src ++ (dst ++ [Fin.ofNat (sp / 256), Fin.ofNat sp,
      Fin.ofNat (dp / 256), Fin.ofNat dp]))
      = dst ++ [Fin.ofNat (sp / 256), Fin.ofNat sp, Fin.ofNat (dp / 256), Fin.ofNat dp] := by
    rw [← hs]; simp
  have t3 : List.take n (dst ++ [Fin.ofNat (sp / 256), Fin.ofNat sp,
      Fin.ofNat (dp / 256), Fin.ofNat dp]) = dst := by
    rw [← hd]; simp
  have g : ∀ i d, (src ++ (dst ++ [Fin.ofNat (sp / 256), Fin.ofNat sp,
      Fin.ofNat (dp / 256), Fin.ofNat dp])).getD (2 * n + i) d
      = [Fin.ofNat (sp / 256), Fin.ofNat sp, Fin.ofNat (dp / 256), Fin.ofNat dp].getD i d := by
    intro i d
    rw [List.getD_append_right _ _ _ _ (by omega), List.getD_append_right _ _ _ _ (by omega)]
    congr 1
    omega
  have g0 := g 0; have g1 := g 1; have g2 := g 2; have g3 := g 3
  simp only [Nat.add_zero] at g0
  rw [t1, t2, t3, g0, g1, g2, g3]
  simp [getUint16_putUint16 sp hsp, getUint16_putUint16 dp hdp]

theorem readFull_append (a b : List Byte) : readFull a.length (a ++ b) = (some a, b) := by
  simp [readFull]

theorem discardN_append (a b : List Byte) : discardN a.length (a ++ b) = (true, b) := by
  simp [discardN]

theorem writeHeader_length (h : proxyV2Header) (hs : h.Signature.length = 12) :
    (writeHeader h).length = 16 := by
  simp [writeHeader, putUint16, hs]

theorem writeAddress_length (n : Nat) (a : proxyV2Address)
    (hs : a.Source.length = n) (hd : a.Destination.length = n) :
    (writeAddress a).length = 2 * n + 4 := by
  simp [writeAddress, putUint16, hs, hd]; omega

theorem ReadProxyLineV2_writeHeader (sig : List Byte) (h : proxyV2Header)
    (hs : h.Signature.length = 12) (hl : h.Length < 65536) (rest : List Byte) :
    ReadProxyLineV2 sig (writeHeader h ++ rest) = readAfterHeader sig h rest := by
  have e := readFull_append (writeHeader h) rest
  rw [writeHeader_length h hs] at e
  simp only [ReadProxyLineV2, headerSize, e, decodeHeader_writeHeader h hs hl]

theorem toUint16_of_port (x : Int) (h0 : 0 ≤ x) (h1 : x ≤ 65535) :
    toUint16 x < 65536 ∧ ((toUint16 x : Nat) : Int) = x := by
  unfold toUint16
  omega

theorem copyArray_of_length (n : Nat) (src : List Byte) (h : src.length = n) :
    copyArray n src = src := by
  simp [copyArray, ← h]

theorem To4_of_length (ip : List Byte) (h : ip.length = 4) : To4 ip = ip := by
  simp [To4, IPv4len, h]

theorem To16_of_length (ip : List Byte) (h : ip.length = 16) : To16 ip = ip := by
  simp [To16, IPv4len, IPv6len, h]

theorem readFull_all (a : List Byte) (n : Nat) (h : a.length = n) :
    readFull n a = (some a, []) := by
  have e := readFull_append a []
  rw [h, List.append_nil] at e
  exact e

theorem readAddressBlock_writeAddress (proto : GoString) (n : Nat) (a : proxyV2Address)
    (hs : a.Source.length = n) (hd : a.Destination.length = n)
    (hsp : a.SourcePort < 65536) (hdp : a.DestinationPort < 65536) :
    readAddressBlock proto n (2 * n + 4) (writeAddress a)
      = (.ok (some
          { Protocol := proto
            Source := { IP := a.Source, Port := (a.SourcePort : Int) }
            Destination := { IP := a.Destination, Port := (a.DestinationPort : Int) } }), []) := by
  simp only [readAddressBlock, readFull_all _ _ (writeAddress_length n a hs hd),
    decodeAddress_writeAddress n a hs hd hsp hdp, gt_iff_lt, lt_self_iff_false, if_false]

/-- C1: version 2 round trip. For a ProxyLine whose Protocol is TCP4 with 4-byte
addresses or TCP6 with 16-byte addresses and whose ports lie in [0, 65535],
`Bytes` gives an output on which `ReadProxyLineV2` returns no error, the same
Protocol, address bytes and ports, and leaves no byte unread. The signature is
any 12-byte sequence. -/
theorem v2_round_trip (sig : List Byte) (p : ProxyLine) (hsig : sig.length = 12)
    (hp : (p.Protocol = TCP4 ∧ p.Source.IP.length = 4 ∧ p.Destination.IP.length = 4) ∨
      (p.Protocol = TCP6 ∧ p.Source.IP.length = 16 ∧ p.Destination.IP.length = 16))
    (hs : 0 ≤ p.Source.Port ∧ p.Source.Port ≤ 65535)
    (hd : 0 ≤ p.Destination.Port ∧ p.Destination.Port ≤ 65535) :
    ∃ bs, Bytes sig p = some bs ∧
      ReadProxyLineV2 sig bs
        = (.ok (some
            { Protocol := p.Protocol
              Source := { IP := p.Source.IP, Port := p.Source.Port }
              Destination := { IP := p.Destination.IP, Port := p.Destination.Port } }), []) := by
  obtain ⟨hsp, hsp2⟩ := toUint16_of_port _ hs.1 hs.2
  obtain ⟨hdp, hdp2⟩ := toUint16_of_port _ hd.1 hd.2
  have hcopy : copyArray 12 sig = sig := copyArray_of_length 12 sig hsig
  rcases hp with ⟨hP, h1, h2⟩ | ⟨hP, h1, h2⟩
  · refine ⟨_, by simp only [Bytes, hP, if_true]; rfl, ?_⟩
    rw [ReadProxyLineV2_writeHeader sig _ (by simp [hcopy, hsig]) (by simp [sizeAddress4])]
    simp only [readAfterHeader, hcopy, ne_eq, not_true_eq_false, if_false]
    have := readAddressBlock_writeAddress TCP4 4
      { SourcePort := toUint16 p.Source.Port
        DestinationPort := toUint16 p.Destination.Port
        Source := copyArray 4 (To4 p.Source.IP)
        Destination := copyArray 4 (To4 p.Destination.IP) }
      (by simp [To4_of_length _ h1, copyArray_of_length 4 _ h1, h1])
      (by simp [To4_of_length _ h2, copyArray_of_length 4 _ h2, h2]) hsp hdp
    simp only [To4_of_length _ h1, copyArray_of_length 4 _ h1, To4_of_length _ h2,
      copyArray_of_length 4 _ h2, hsp2, hdp2] at this
    simp only [To4_of_length _ h1, copyArray_of_length 4 _ h1, To4_of_length _ h2,
      copyArray_of_length 4 _ h2, hP]
    simpa [Version2, LocalCommand, ProxyCommand, ProtocolTCP4, sizeAddress4, Fin.ofNat] using this
  · have hne : TCP6 ≠ TCP4 := by decide
    refine ⟨_, by simp only [Bytes, hP, hne, if_false, if_true]; rfl, ?_⟩
    rw [ReadProxyLineV2_writeHeader sig _ (by simp [hcopy, hsig]) (by simp [sizeAddress6])]
    simp only [readAfterHeader, hcopy, ne_eq, not_true_eq_false, if_false]
    have := readAddressBlock_writeAddress TCP6 16
      { SourcePort := toUint16 p.Source.Port
        DestinationPort := toUint16 p.Destination.Port
        Source := copyArray 16 (To16 p.Source.IP)
        Destination := copyArray 16 (To16 p.Destination.IP) }
      (by simp [To16_of_length _ h1, copyArray_of_length 16 _ h1, h1])
      (by simp [To16_of_length _ h2, copyArray_of_length 16 _ h2, h2]) hsp hdp
    simp only [To16_of_length _ h1, copyArray_of_length 16 _ h1, To16_of_length _ h2,
      copyArray_of_length 16 _ h2, hsp2, hdp2] at this
    simp only [To16_of_length _ h1, copyArray_of_length 16 _ h1, To16_of_length _ h2,
      copyArray_of_length 16 _ h2, hP]
    have hq : ProtocolTCP6 ≠ ProtocolTCP4 := by decide
    simpa [Version2, LocalCommand, ProxyCommand, hq, sizeAddress6, Fin.ofNat] using this

/-- Witness for C1: the line TCP4 192.168.1.1:443 to 10.0.0.1:1080. -/
theorem v2_round_trip_witness :
    ∃ bs, Bytes proxyV2Prefix
        { Protocol := TCP4
          Source := { IP := [192, 168, 1, 1], Port := 443 }
          Destination := { IP := [10, 0, 0, 1], Port := 1080 } } = some bs ∧
      ReadProxyLineV2 proxyV2Prefix bs
        = (.ok (some
            { Protocol := TCP4
              Source := { IP := [192, 168, 1, 1], Port := 443 }
              Destination := { IP := [10, 0, 0, 1], Port := 1080 } }), []) :=
  v2_round_trip proxyV2Prefix
    { Protocol := TCP4
      Source := { IP := [192, 168, 1, 1], Port := 443 }
      Destination := { IP := [10, 0, 0, 1], Port := 1080 } }
    (by decide) (Or.inl ⟨rfl, rfl, rfl⟩) (by decide) (by decide)

/-! ## Version 2: framing, commands and rejections -/

theorem getD_take (l : List Byte) (n i : Nat) (d : Byte) (h : i < n) :
    (l.take n).getD i d = l.getD i d := by
  simp [List.getD_eq_getElem?_getD, List.getElem?_take, h]

theorem decodeHeader_take (reader : List Byte) :
    decodeHeader (reader.take 16) = decodeHeader reader := by
  simp [decodeHeader, getD_take, List.take_take]

theorem ReadProxyLineV2_eq (sig reader : List Byte) (h : 16 ≤ reader.length) :
    ReadProxyLineV2 sig reader = readAfterHeader sig (decodeHeader reader) (reader.drop 16) := by
  rw [ReadProxyLineV2_of_le sig reader h, decodeHeader_take]

theorem ReadProxyLineV2_short (sig reader : List Byte) (h : reader.length < 16) :
    ReadProxyLineV2 sig reader = (.error .readError, []) := by
  simp [ReadProxyLineV2, headerSize, readFull, Nat.not_le.mpr h]

theorem readFull_of_gt (n : Nat) (reader : List Byte) (h : reader.length < n) :
    readFull n reader = (none, []) := by
  simp [readFull, Nat.not_le.mpr h]

theorem discardN_of_gt (n : Nat) (reader : List Byte) (h : reader.length < n) :
    discardN n reader = (false, []) := by
  simp [discardN, Nat.not_le.mpr h]

theorem readAddressBlock_ok (proto : GoString) (n length : Nat) (reader : List Byte)
    (q : Option ProxyLine) (rest : List Byte)
    (h : readAddressBlock proto n length reader = (.ok q, rest)) :
    max length (2 * n + 4) ≤ reader.length ∧ rest = reader.drop (max length (2 * n + 4)) := by
  simp only [readAddressBlock] at h
  by_cases h1 : 2 * n + 4 ≤ reader.length
  · rw [readFull_of_le _ _ h1] at h
    by_cases h2 : length > 2 * n + 4
    · simp only [h2, if_true] at h
      by_cases h3 : length - (2 * n + 4) ≤ (reader.drop (2 * n + 4)).length
      · rw [discardN_of_le _ _ h3] at h
        simp only [Prod.mk.injEq, List.drop_drop] at h
        have h4 : max length (2 * n + 4) = length := by omega
        have h5 : 2 * n + 4 + (length - (2 * n + 4)) = length := by omega
        rw [List.length_drop] at h3
        rw [h4]
        refine ⟨by omega, ?_⟩
        rw [← h.2, h5]
      · rw [discardN_of_gt _ _ (Nat.not_le.mp h3)] at h
        simp at h
    · simp only [h2, if_false, Prod.mk.injEq] at h
      have h4 : max length (2 * n + 4) = 2 * n + 4 := by omega
      rw [h4]
      exact ⟨h1, h.2.symm⟩
  · rw [readFull_of_gt _ _ (Nat.not_le.mp h1)] at h
    simp at h

/-- C6, as amended: whenever `ReadProxyLineV2` returns without error it has
consumed the 16 bytes of the header and, for the LOCAL command, the declared
length, for the PROXY command the larger of the declared length and the size
of the address block (12 bytes for TCP4, 36 for TCP6); the stream holds that
many bytes and everything after them is left unread. -/
theorem v2_consumed (sig reader : List Byte) (q : Option ProxyLine) (rest : List Byte)
    (h : ReadProxyLineV2 sig reader = (.ok q, rest)) :
    16 + (if (decodeHeader reader).VersionCommand.val % 16 = LocalCommand then
            (decodeHeader reader).Length
          else if (decodeHeader reader).Protocol = ProtocolTCP4 then
            max (decodeHeader reader).Length 12
          else max (decodeHeader reader).Length 36) ≤ reader.length ∧
      rest = reader.drop (16 +
        (if (decodeHeader reader).VersionCommand.val % 16 = LocalCommand then
            (decodeHeader reader).Length
          else if (decodeHeader reader).Protocol = ProtocolTCP4 then
            max (decodeHeader reader).Length 12
          else max (decodeHeader reader).Length 36)) := by
  by_cases h16 : 16 ≤ reader.length
  · rw [ReadProxyLineV2_eq sig reader h16] at h
    generalize decodeHeader reader = header at h ⊢
    unfold readAfterHeader at h
    by_cases c1 : header.Signature ≠ sig
    · simp [c1] at h
    · simp only [c1, if_false] at h
      by_cases c2 : header.VersionCommand.val / 16 ≠ Version2
      · simp [c2] at h
      · simp only [c2, if_false] at h
        by_cases c3 : header.VersionCommand.val % 16 = LocalCommand
        · simp only [c3, if_true] at h ⊢
          by_cases c4 : header.Length > 0
          · simp only [c4, if_true] at h
            by_cases c5 : header.Length ≤ (reader.drop 16).length
            · rw [discardN_of_le _ _ c5] at h
              simp only [Prod.mk.injEq, List.drop_drop] at h
              rw [List.length_drop] at c5
              exact ⟨by omega, h.2.symm⟩
            · rw [discardN_of_gt _ _ (Nat.not_le.mp c5)] at h
              simp at h
          · simp only [c4, if_false, Prod.mk.injEq] at h
            have : header.Length = 0 := by omega
            rw [this]
            exact ⟨h16, h.2.symm⟩
        · simp only [c3, if_false] at h ⊢
          by_cases c6 : header.VersionCommand.val % 16 ≠ ProxyCommand
          · simp [c6] at h
          · simp only [c6, if_false] at h
            by_cases c7 : header.Protocol = ProtocolTCP4
            · simp only [c7, if_true] at h ⊢
              obtain ⟨k1, k2⟩ := readAddressBlock_ok _ _ _ _ _ _ h
              rw [List.length_drop] at k1
              rw [List.drop_drop] at k2
              exact ⟨by omega, k2⟩
            · simp only [c7, if_false] at h ⊢
              by_cases c8 : header.Protocol = ProtocolTCP6
              · simp only [c8, if_true] at h
                obtain ⟨k1, k2⟩ := readAddressBlock_ok _ _ _ _ _ _ h
                rw [List.length_drop] at k1
                rw [List.drop_drop] at k2
                exact ⟨by omega, k2⟩
              · simp [c8] at h
  · rw [ReadProxyLineV2_short sig reader (Nat.not_le.mp h16)] at h
    simp at h

/-- Witness for C6 as amended: a TCP4 header that declares the length 0. -/
theorem v2_consumed_witness :
    16 + 12 ≤ shortLengthStream.length ∧ [9, 9] = shortLengthStream.drop (16 + 12) :=
  v2_consumed proxyV2Prefix shortLengthStream
    (some
      { Protocol := TCP4
        Source := { IP := [1, 2, 3, 4], Port := 1 }
        Destination := { IP := [5, 6, 7, 8], Port := 2 } })
    [9, 9] (by decide)

/-- C6 as stated fails: on a PROXY header over TCP4 with the declared length 0
the reader returns a line and has consumed 28 bytes, not 16 + 0. -/
theorem v2_consumed_counterexample :
    ReadProxyLineV2 proxyV2Prefix shortLengthStream
        = (.ok (some
            { Protocol := TCP4
              Source := { IP := [1, 2, 3, 4], Port := 1 }
              Destination := { IP := [5, 6, 7, 8], Port := 2 } }), [9, 9]) ∧
      (decodeHeader shortLengthStream).Length = 0 ∧
      shortLengthStream.length - [(9 : Byte), 9].length = 28 ∧
      shortLengthStream.drop (16 + (decodeHeader shortLengthStream).Length) ≠ [9, 9] := by
  decide

/-- C10: on a stream of at least 16 bytes whose first 12 bytes are not the
signature, `ReadProxyLineV2` returns no line and the error "unrecognized
signature", whatever the other header bytes are, and leaves unread everything
after the 16 header bytes. -/
theorem v2_bad_signature (sig reader : List Byte) (h16 : 16 ≤ reader.length)
    (hsig : reader.take 12 ≠ sig) :
    ReadProxyLineV2 sig reader = (.error .unrecognizedSignature, reader.drop 16) := by
  rw [ReadProxyLineV2_eq sig reader h16]
  have : (decodeHeader reader).Signature ≠ sig := hsig
  simp [readAfterHeader, this]

/-- Witness for C10: the last signature byte is altered. -/
theorem v2_bad_signature_witness :
    ReadProxyLineV2 proxyV2Prefix
        ([0x0D, 0x0A, 0x0D, 0x0A, 0x00, 0x0D, 0x0A, 0x51, 0x55, 0x49, 0x54, 0x0B,
          0x21, 0x11, 0, 12, 1, 2, 3, 4, 5, 6, 7, 8, 0, 1, 0, 2])
      = (.error .unrecognizedSignature, [1, 2, 3, 4, 5, 6, 7, 8, 0, 1, 0, 2]) :=
  v2_bad_signature proxyV2Prefix
    [0x0D, 0x0A, 0x0D, 0x0A, 0x00, 0x0D, 0x0A, 0x51, 0x55, 0x49, 0x54, 0x0B,
      0x21, 0x11, 0, 12, 1, 2, 3, 4, 5, 6, 7, 8, 0, 1, 0, 2]
    (by decide) (by decide)

/-- C7: on a header with the signature, version 2 and the LOCAL command, with
any protocol byte, `ReadProxyLineV2` returns `(nil, nil)`: after the 16 header
bytes when the declared length is 0, and after 16 + n bytes when the declared
length n is positive and the stream holds n more bytes. -/
theorem v2_local_command (sig reader : List Byte) (h16 : 16 ≤ reader.length)
    (hsig : reader.take 12 = sig)
    (hver : (decodeHeader reader).VersionCommand.val / 16 = 2)
    (hcmd : (decodeHeader reader).VersionCommand.val % 16 = 0) :
    ((decodeHeader reader).Length = 0 →
        ReadProxyLineV2 sig reader = (.ok none, reader.drop 16)) ∧
      (0 < (decodeHeader reader).Length →
        16 + (decodeHeader reader).Length ≤ reader.length →
        ReadProxyLineV2 sig reader
          = (.ok none, reader.drop (16 + (decodeHeader reader).Length))) := by
  rw [ReadProxyLineV2_eq sig reader h16]
  have hs : (decodeHeader reader).Signature = sig := hsig
  constructor
  · intro h0
    simp [readAfterHeader, hs, hver, hcmd, h0, Version2, LocalCommand]
  · intro hpos hlen
    have hd : discardN (decodeHeader reader).Length (reader.drop 16)
        = (true, reader.drop (16 + (decodeHeader reader).Length)) := by
      rw [discardN_of_le _ _ (by rw [List.length_drop]; omega), List.drop_drop]
    simp [readAfterHeader, hs, hver, hcmd, hpos, hd, Version2, LocalCommand]

/-- Witness for C7: a LOCAL header that declares 3 bytes. -/
theorem v2_local_command_witness :
    ReadProxyLineV2 proxyV2Prefix (proxyV2Prefix ++ [0x20, 0x00, 0, 3] ++ [7, 7, 7] ++ [9, 9])
      = (.ok none, [9, 9]) :=
  (v2_local_command proxyV2Prefix (proxyV2Prefix ++ [0x20, 0x00, 0, 3] ++ [7, 7, 7] ++ [9, 9])
    (by decide) (by decide) (by decide) (by decide)).2 (by decide) (by decide)

/-- C9: on a stream of at least 16 bytes `ReadProxyLineV2` returns an error
when the version is not 2, when the version is 2 and the command is neither
LOCAL nor PROXY, and when the command is PROXY and the protocol byte is neither
0x11 nor 0x21; and it returns without error only if the signature matches,
the version is 2 and the command is LOCAL, or PROXY with protocol 0x11 or
0x21. -/
theorem v2_rejects_unsupported (sig reader : List Byte) (h16 : 16 ≤ reader.length) :
    (((decodeHeader reader).VersionCommand.val / 16 ≠ 2 ∨
        ((decodeHeader reader).VersionCommand.val / 16 = 2 ∧
          (decodeHeader reader).VersionCommand.val % 16 ≠ 0 ∧
          (decodeHeader reader).VersionCommand.val % 16 ≠ 1) ∨
        ((decodeHeader reader).VersionCommand.val % 16 = 1 ∧
          (decodeHeader reader).Protocol ≠ 0x11 ∧ (decodeHeader reader).Protocol ≠ 0x21)) →
      ∃ e, (ReadProxyLineV2 sig reader).1 = .error e) ∧
    (∀ q, (ReadProxyLineV2 sig reader).1 = .ok q →
      reader.take 12 = sig ∧ (decodeHeader reader).VersionCommand.val / 16 = 2 ∧
        ((decodeHeader reader).VersionCommand.val % 16 = 0 ∨
          ((decodeHeader reader).VersionCommand.val % 16 = 1 ∧
            ((decodeHeader reader).Protocol = 0x11 ∨ (decodeHeader reader).Protocol = 0x21)))) := by
  rw [ReadProxyLineV2_eq sig reader h16]
  have hs : (decodeHeader reader).Signature = reader.take 12 := rfl
  generalize decodeHeader reader = header at hs ⊢
  unfold readAfterHeader
  by_cases c1 : header.Signature ≠ sig
  · rw [if_pos c1]
    exact ⟨fun _ => ⟨_, rfl⟩, fun q hq => by cases hq⟩
  rw [if_neg c1]
  have c1b : reader.take 12 = sig := by rw [← hs]; exact not_not.mp c1
  by_cases c2 : header.VersionCommand.val / 16 ≠ Version2
  · rw [if_pos c2]
    exact ⟨fun _ => ⟨_, rfl⟩, fun q hq => by cases hq⟩
  rw [if_neg c2]
  have c2b : header.VersionCommand.val / 16 = 2 := not_not.mp c2
  by_cases c3 : header.VersionCommand.val % 16 = LocalCommand
  · have c3b : header.VersionCommand.val % 16 = 0 := c3
    refine ⟨fun h => ?_, fun q _ => ⟨c1b, c2b, Or.inl c3b⟩⟩
    rcases h with h | h | h
    · exact absurd c2b h
    · exact absurd c3b h.2.1
    · omega
  rw [if_neg c3]
  by_cases c6 : header.VersionCommand.val % 16 ≠ ProxyCommand
  · rw [if_pos c6]
    exact ⟨fun _ => ⟨_, rfl⟩, fun q hq => by cases hq⟩
  rw [if_neg c6]
  have c6b : header.VersionCommand.val % 16 = 1 := not_not.mp c6
  by_cases c7 : header.Protocol = ProtocolTCP4
  · have c7b : header.Protocol = 0x11 := c7
    refine ⟨fun h => ?_, fun q _ => ⟨c1b, c2b, Or.inr ⟨c6b, Or.inl c7b⟩⟩⟩
    rcases h with h | h | h
    · exact absurd c2b h
    · exact absurd c6b h.2.2
    · exact absurd c7b h.2.1
  rw [if_neg c7]
  by_cases c8 : header.Protocol = ProtocolTCP6
  · have c8b : header.Protocol = 0x21 := c8
    refine ⟨fun h => ?_, fun q _ => ⟨c1b, c2b, Or.inr ⟨c6b, Or.inr c8b⟩⟩⟩
    rcases h with h | h | h
    · exact absurd c2b h
    · exact absurd c6b h.2.2
    · exact absurd c8b h.2.2
  rw [if_neg c8]
  exact ⟨fun _ => ⟨_, rfl⟩, fun q hq => by cases hq⟩

/-- Witness for C9: a header of version 3. -/
theorem v2_rejects_unsupported_witness :
    ∃ e, (ReadProxyLineV2 proxyV2Prefix
      (proxyV2Prefix ++ [0x30, 0x11, 0, 0] ++ [1, 2, 3, 4, 5, 6, 7, 8, 0, 1, 0, 2])).1
        = .error e :=
  (v2_rejects_unsupported proxyV2Prefix
    (proxyV2Prefix ++ [0x30, 0x11, 0, 0] ++ [1, 2, 3, 4, 5, 6, 7, 8, 0, 1, 0, 2])
    (by decide)).1 (Or.inl (by decide))

theorem readAddressBlock_exact (proto : GoString) (n : Nat) (block tail : List Byte)
    (hb : block.length = 2 * n + 4) :
    readAddressBlock proto n (2 * n + 4) (block ++ tail)
      = (.ok (some
          { Protocol := proto
            Source := { IP := (decodeAddress n block).Source,
                        Port := ((decodeAddress n block).SourcePort : Int) }
            Destination := { IP := (decodeAddress n block).Destination,
                             Port := ((decodeAddress n block).DestinationPort : Int) } }),
        tail) := by
  have e := readFull_append block tail
  rw [hb] at e
  simp only [readAddressBlock, e, gt_iff_lt, lt_self_iff_false, if_false]

theorem readAddressBlock_extension (proto : GoString) (n L : Nat) (block ext tail : List Byte)
    (hb : block.length = 2 * n + 4) (hL : 2 * n + 4 < L) (he : ext.length = L - (2 * n + 4)) :
    readAddressBlock proto n L (block ++ ext ++ tail)
      = (.ok (some
          { Protocol := proto
            Source := { IP := (decodeAddress n block).Source,
                        Port := ((decodeAddress n block).SourcePort : Int) }
            Destination := { IP := (decodeAddress n block).Destination,
                             Port := ((decodeAddress n block).DestinationPort : Int) } }),
        tail) := by
  have e := readFull_append block (ext ++ tail)
  rw [hb] at e
  have d := discardN_append ext tail
  rw [he] at d
  simp only [readAddressBlock, List.append_assoc, e, gt_iff_lt, hL, if_true, d]

/-- C8: a PROXY header over TCP4 (resp. TCP6) that declares a length L above
12 (resp. 36), followed by the address block and L - 12 (resp. L - 36) more
bytes, is read without error, gives the line that the same block gives with
the declared length 12 (resp. 36) and no extension, and exactly the 16 + L
bytes are consumed: what follows them is left unread. -/
theorem v2_extension_skipped (sig block ext tail : List Byte) (proto : Byte) (size L : Nat)
    (hsig : sig.length = 12)
    (hproto : (proto = ProtocolTCP4 ∧ size = 12) ∨ (proto = ProtocolTCP6 ∧ size = 36))
    (hblock : block.length = size) (hL : size < L) (hL2 : L < 65536)
    (hext : ext.length = L - size) :
    ∃ q,
      ReadProxyLineV2 sig
          (writeHeader { Signature := sig, VersionCommand := 0x21, Protocol := proto,
                         Length := size } ++ block) = (.ok (some q), []) ∧
        ReadProxyLineV2 sig
          (writeHeader { Signature := sig, VersionCommand := 0x21, Protocol := proto,
                         Length := L } ++ block ++ ext ++ tail) = (.ok (some q), tail) ∧
        (writeHeader { Signature := sig, VersionCommand := 0x21, Protocol := proto,
                       Length := L } ++ block ++ ext).length = 16 + L := by
  have hlen : (writeHeader ⟨sig, 0x21, proto, L⟩ ++ block ++ ext).length = 16 + L := by
    rw [List.length_append, List.length_append, writeHeader_length _ hsig, hblock, hext]
    omega
  have hver : ((0x21 : Byte).val / 16 ≠ Version2) = False := by decide
  have hloc : ((0x21 : Byte).val % 16 = LocalCommand) = False := by decide
  have hcmd : ((0x21 : Byte).val % 16 ≠ ProxyCommand) = False := by decide
  have h64 : ProtocolTCP6 ≠ ProtocolTCP4 := by decide
  rcases hproto with ⟨hp, hs⟩ | ⟨hp, hs⟩
  · subst hp hs
    refine ⟨⟨TCP4, ⟨(decodeAddress 4 block).Source, ((decodeAddress 4 block).SourcePort : Int), []⟩,
      ⟨(decodeAddress 4 block).Destination, ((decodeAddress 4 block).DestinationPort : Int), []⟩⟩,
      ?_, ?_, hlen⟩
    · rw [ReadProxyLineV2_writeHeader sig _ hsig (by simp)]
      have := readAddressBlock_exact TCP4 4 block [] hblock
      rw [List.append_nil] at this
      simp only [readAfterHeader, hver, hloc, hcmd, ne_eq, not_true_eq_false, if_false, if_true]
      exact this
    · rw [List.append_assoc, List.append_assoc,
        ReadProxyLineV2_writeHeader sig _ hsig hL2, ← List.append_assoc]
      simp only [readAfterHeader, hver, hloc, hcmd, ne_eq, not_true_eq_false, if_false, if_true]
      exact readAddressBlock_extension TCP4 4 L block ext tail hblock hL hext
  · subst hp hs
    refine ⟨⟨TCP6, ⟨(decodeAddress 16 block).Source, ((decodeAddress 16 block).SourcePort : Int), []⟩,
      ⟨(decodeAddress 16 block).Destination, ((decodeAddress 16 block).DestinationPort : Int), []⟩⟩,
      ?_, ?_, hlen⟩
    · rw [ReadProxyLineV2_writeHeader sig _ hsig (by simp)]
      have := readAddressBlock_exact TCP6 16 block [] hblock
      rw [List.append_nil] at this
      simp only [readAfterHeader, hver, hloc, hcmd, h64, ne_eq, not_true_eq_false, if_false,
        if_true]
      exact this
    · rw [List.append_assoc, List.append_assoc,
        ReadProxyLineV2_writeHeader sig _ hsig hL2, ← List.append_assoc]
      simp only [readAfterHeader, hver, hloc, hcmd, h64, ne_eq, not_true_eq_false, if_false,
        if_true]
      exact readAddressBlock_extension TCP6 16 L block ext tail hblock hL hext

/-- Witness for C8: three extension bytes after a TCP4
block. -/
theorem v2_extension_skipped_witness :
    ∃ q,
      ReadProxyLineV2 proxyV2Prefix
          (writeHeader { Signature := proxyV2Prefix, VersionCommand := 0x21,
                         Protocol := 0x11, Length := 12 }
            ++ [1, 2, 3, 4, 5, 6, 7, 8, 0, 1, 0, 2]) = (.ok (some q), []) ∧
        ReadProxyLineV2 proxyV2Prefix
          (writeHeader { Signature := proxyV2Prefix, VersionCommand := 0x21,
                         Protocol := 0x11, Length := 15 }
            ++ [1, 2, 3, 4, 5, 6, 7, 8, 0, 1, 0, 2] ++ [7, 7, 7] ++ [9, 9])
          = (.ok (some q), [9, 9]) ∧
        (writeHeader { Signature := proxyV2Prefix, VersionCommand := 0x21,
                       Protocol := 0x11, Length := 15 }
            ++ [1, 2, 3, 4, 5, 6, 7, 8, 0, 1, 0, 2] ++ [7, 7, 7]).length = 16 + 15 :=
  v2_extension_skipped proxyV2Prefix [1, 2, 3, 4, 5, 6, 7, 8, 0, 1, 0, 2] [7, 7, 7] [9, 9]
    0x11 12 15 (by decide) (Or.inl ⟨rfl, rfl⟩) (by decide) (by decide) (by decide) (by decide)

/-! ## Version 1: lines and the family of the addresses -/

theorem ReadString_line (content rest : List Byte) (h : (10 : Byte) ∉ content) :
    ReadString 10 (content ++ [13, 10] ++ rest) = (some (content ++ [13, 10]), rest) := by
  induction content with
  | nil => simp [ReadString]
  | cons b t ih =>
    have hb : b ≠ 10 := fun e => h (by simp [e])
    have ht : (10 : Byte) ∉ t := fun e => h (by simp [e])
    show ReadString 10 (b :: (t ++ [13, 10] ++ rest)) = _
    rw [ReadString, if_neg hb, ih ht]
    rfl

theorem HasSuffix_line (content : List Byte) :
    HasSuffix (content ++ [13, 10]) proxyCRLF = true := by
  simp [HasSuffix, proxyCRLF]

theorem take_line (content : List Byte) :
    (content ++ [13, 10]).take ((content ++ [13, 10]).length - 2) = content := by
  simp

theorem ReadProxyLine_line (content rest : List Byte) (h : (10 : Byte) ∉ content) :
    ReadProxyLine (content ++ [13, 10] ++ rest)
      = (if (Split proxySep content).length < 6 then .error .malformedLine
          else parseTokens (Split proxySep content), rest) := by
  simp only [ReadProxyLine, ReadString_line content rest h, HasSuffix_line, take_line,
    Bool.not_true, Bool.false_eq_true, if_false]
  split <;> rfl

theorem To4_nil : To4 [] = [] := by decide

theorem parseIP_ipv4_other (protocol addrString : GoString)
    (h4 : To4 (ParseIP addrString) ≠ []) (hp : protocol ≠ TCP4) :
    parseIP protocol addrString = .error .gotIPV4ForIPV6Proto := by
  have hlen : (ParseIP addrString).length ≠ 0 := by
    intro e
    rw [List.length_eq_zero] at e
    rw [e] at h4
    exact h4 To4_nil
  simp [parseIP, hlen, h4, hp]

theorem parseIP_not_ipv4 (protocol addrString : GoString)
    (hlen : ParseIP addrString ≠ []) (h4 : To4 (ParseIP addrString) = []) :
    parseIP protocol addrString
      = if protocol = TCP6 then .error .gotIPV6ForIPV4Proto else .ok (ParseIP addrString) := by
  have hlen2 : (ParseIP addrString).length ≠ 0 := by
    rw [ne_eq, List.length_eq_zero]; exact hlen
  simp [parseIP, hlen2, h4]

theorem protocol_ne_TCP4 (tok : GoString) (h : tok ≠ TCP4) :
    (if tok = TCP4 then TCP4 else if tok = TCP6 then TCP6 else UNKNOWN) ≠ TCP4 := by
  rw [if_neg h]
  split
  · decide
  · decide

/-- C5: for every address text that parses to an address usable as 4 bytes and
every protocol other than TCP4, `parseIP` returns the error "got IPV4 address
... for IPV6 proto"; hence `ReadProxyLine` fails on every CRLF-terminated line
of at least 6 tokens whose second token is not "TCP4" and whose third or
fourth token is that text, with that very error when it is the third token. -/
theorem v1_rejects_ipv4_under_other_protocol (protocol addrString : GoString)
    (h4 : To4 (ParseIP addrString) ≠ []) (hp : protocol ≠ TCP4) :
    parseIP protocol addrString = .error .gotIPV4ForIPV6Proto ∧
      ∀ content rest : List Byte, (10 : Byte) ∉ content →
        6 ≤ (Split proxySep content).length →
        (Split proxySep content).getD 1 [] ≠ TCP4 →
        ((Split proxySep content).getD 2 [] = addrString →
          ReadProxyLine (content ++ [13, 10] ++ rest)
            = (.error .gotIPV4ForIPV6Proto, rest)) ∧
        ((Split proxySep content).getD 3 [] = addrString →
          ∃ e, ReadProxyLine (content ++ [13, 10] ++ rest) = (.error e, rest)) := by
  refine ⟨parseIP_ipv4_other protocol addrString h4 hp, ?_⟩
  intro content rest hnl h6 htok
  rw [ReadProxyLine_line content rest hnl, if_neg (Nat.not_lt.mpr h6)]
  have hproto := protocol_ne_TCP4 _ htok
  constructor
  · intro h2
    have e := parseIP_ipv4_other _ addrString h4 hproto
    simp only [parseTokens, h2, e]
  · intro h3
    have e := parseIP_ipv4_other _ addrString h4 hproto
    simp only [parseTokens, h3, e]
    split
    · exact ⟨_, rfl⟩
    · exact ⟨_, rfl⟩

/-- Witness for C5: the address 192.168.1.1
under TCP6, and the line "PROXY TCP6 192.168.1.1 ::1 443 1080". -/
theorem v1_rejects_ipv4_under_other_protocol_witness :
    parseIP TCP6 (str "192.168.1.1") = .error .gotIPV4ForIPV6Proto ∧
      ReadProxyLine (str "PROXY TCP6 192.168.1.1 ::1 443 1080" ++ [13, 10] ++ [])
        = (.error .gotIPV4ForIPV6Proto, []) :=
  have h := v1_rejects_ipv4_under_other_protocol TCP6 (str "192.168.1.1")
    (by decide) (by decide)
  ⟨h.1, (h.2 (str "PROXY TCP6 192.168.1.1 ::1 443 1080") [] (by decide) (by decide)
    (by decide)).1 (by decide)⟩

/-- C2 at its failing input: the text of a TCP6 line from fe80::1 to fe80::2,
two addresses that are not IPv4, is rejected by `ReadProxyLine` with the error
"got IPV6 address ... for IPV4 proto", while the text of a TCP4 line is read
back with the same protocol, ports and addresses in 16-byte form. -/
theorem v1_round_trip_fails_for_tcp6 :
    tcp6Line.String = str "PROXY TCP6 fe80::1 fe80::2 443 1080\r\n" ∧
      To4 tcp6Line.Source.IP = [] ∧ To4 tcp6Line.Destination.IP = [] ∧
      ReadProxyLine tcp6Line.String = (.error .gotIPV6ForIPV4Proto, []) ∧
      tcp4Line.String = str "PROXY TCP4 192.168.1.1 10.0.0.1 443 1080\r\n" ∧
      ReadProxyLine tcp4Line.String
        = (.ok (some
            { Protocol := TCP4
              Source := { IP := To16 [192, 168, 1, 1], Port := 443 }
              Destination := { IP := To16 [10, 0, 0, 1], Port := 1080 } }), []) := by
  decide

/-- C3 at its failing input: under TCP4 `parseIP` returns the 16 bytes of "::1",
which `To4` cannot express in 4 bytes, and the line
"PROXY TCP4 ::1 ::1 443 1080" is accepted with Protocol TCP4. -/
theorem v1_tcp4_line_with_ipv6_accepted :
    parseIP TCP4 (str "::1") = .ok [0, 0, 0, 0, 0, 0, 0, 0, 0, 0, 0, 0, 0, 0, 0, 1] ∧
      To4 [0, 0, 0, 0, 0, 0, 0, 0, 0, 0, 0, 0, 0, 0, 0, 1] = [] ∧
      ReadProxyLine (str "PROXY TCP4 ::1 ::1 443 1080\r\n")
        = (.ok (some
            { Protocol := TCP4
              Source := { IP := [0, 0, 0, 0, 0, 0, 0, 0, 0, 0, 0, 0, 0, 0, 0, 1], Port := 443 }
              Destination :=
                { IP := [0, 0, 0, 0, 0, 0, 0, 0, 0, 0, 0, 0, 0, 0, 0, 1], Port := 1080 } }),
          []) := by
  decide

/-- C4 at its failing input: "2001:db8::1" parses to an address that is not
IPv4, `parseIP` rejects it under TCP6 with the error "got IPV6 address ... for
IPV4 proto", and so is the line "PROXY TCP6 2001:db8::1 2001:db8::2 443 1080". -/
theorem v1_tcp6_line_with_ipv6_rejected :
    ParseIP (str "2001:db8::1") = [0x20, 0x01, 0x0d, 0xb8, 0, 0, 0, 0, 0, 0, 0, 0, 0, 0, 0, 1] ∧
      To4 (ParseIP (str "2001:db8::1")) = [] ∧
      parseIP TCP6 (str "2001:db8::1") = .error .gotIPV6ForIPV4Proto ∧
      ReadProxyLine (str "PROXY TCP6 2001:db8::1 2001:db8::2 443 1080\r\n")
        = (.error .gotIPV6ForIPV4Proto, []) := by
  decide

/-! ## Version 1: framing and tokens -/

theorem ReadString_none (reader : List Byte) (h : (10 : Byte) ∉ reader) :
    ReadString 10 reader = (none, []) := by
  induction reader with
  | nil => rfl
  | cons b t ih =>
    have hb : b ≠ 10 := fun e => h (by simp [e])
    have ht : (10 : Byte) ∉ t := fun e => h (by simp [e])
    rw [ReadString, if_neg hb, ih ht]

theorem ReadString_first (pre rest : List Byte) (h : (10 : Byte) ∉ pre) :
    ReadString 10 (pre ++ 10 :: rest) = (some (pre ++ [10]), rest) := by
  induction pre with
  | nil => simp [ReadString]
  | cons b t ih =>
    have hb : b ≠ 10 := fun e => h (by simp [e])
    have ht : (10 : Byte) ∉ t := fun e => h (by simp [e])
    show ReadString 10 (b :: (t ++ 10 :: rest)) = _
    rw [ReadString, if_neg hb, ih ht]
    rfl

theorem HasSuffix_no_CR (pre : List Byte) (h : pre.getLast? ≠ some 13) :
    HasSuffix (pre ++ [10]) proxyCRLF = false := by
  simp only [HasSuffix, proxyCRLF, decide_eq_false_iff_not, not_and]
  intro _ e
  apply h
  rcases List.eq_nil_or_concat pre with hp | ⟨l, b, hp⟩
  · subst hp
    simp at e
  · subst hp
    simp only [List.concat_eq_append, List.append_assoc, List.singleton_append,
      List.length_append, List.length_cons, List.length_singleton, List.length_nil] at e
    have e2 : List.drop (l.length + (0 + 1 + 1) - 2) (l ++ [b, 10]) = [b, 10] := by
      have : l.length + (0 + 1 + 1) - 2 = l.length := by omega
      rw [this]; simp
    rw [e2] at e
    simp only [List.cons.injEq, and_true] at e
    simp [e]

/-- C14: when the stream holds no LF at all, or when its first LF is not
immediately preceded by CR, `ReadProxyLine` returns no line and an error: the
read error in the first case, "expected CRLF" in the second. -/
theorem v1_framing (reader : List Byte)
    (h : (10 : Byte) ∉ reader ∨
      ∃ pre rest : List Byte, reader = pre ++ 10 :: rest ∧ (10 : Byte) ∉ pre ∧
        pre.getLast? ≠ some 13) :
    (ReadProxyLine reader).1 = .error .readError ∨
      (ReadProxyLine reader).1 = .error .expectedCRLF := by
  rcases h with h | ⟨pre, rest, hr, hpre, hcr⟩
  · left
    simp [ReadProxyLine, ReadString_none reader h]
  · right
    subst hr
    simp [ReadProxyLine, ReadString_first pre rest hpre, HasSuffix_no_CR pre hcr]

/-- Witness for C14: a line that ends with LF alone. -/
theorem v1_framing_witness :
    (ReadProxyLine (str "PROXY TCP4 1.2.3.4 1.2.3.4 443 1\nnext")).1 = .error .readError ∨
      (ReadProxyLine (str "PROXY TCP4 1.2.3.4 1.2.3.4 443 1\nnext")).1
        = .error .expectedCRLF :=
  v1_framing (str "PROXY TCP4 1.2.3.4 1.2.3.4 443 1\nnext")
    (Or.inr ⟨str "PROXY TCP4 1.2.3.4 1.2.3.4 443 1", str "next", by decide, by decide,
      by decide⟩)

/-- C15: on a CRLF-terminated line whose content splits on single spaces into
fewer than 6 tokens, `ReadProxyLine` returns no line and the error "malformed
PROXY line protocol string". -/
theorem v1_token_count (content rest : List Byte) (hnl : (10 : Byte) ∉ content)
    (h : (Split proxySep content).length < 6) :
    ReadProxyLine (content ++ [13, 10] ++ rest) = (.error .malformedLine, rest) := by
  rw [ReadProxyLine_line content rest hnl, if_pos h]

/-- Witness for C15: the empty line. -/
theorem v1_token_count_witness :
    ReadProxyLine ([] ++ [13, 10] ++ str "next") = (.error .malformedLine, str "next") :=
  v1_token_count [] (str "next") (by decide) (by decide)

/-! ## Version 2: truncated streams -/

theorem readAddressBlock_truncated (proto : GoString) (n length : Nat) (reader : List Byte)
    (h : reader.length < max length (2 * n + 4)) :
    readAddressBlock proto n length reader = (.error .readError, []) := by
  simp only [readAddressBlock]
  by_cases h1 : 2 * n + 4 ≤ reader.length
  · rw [readFull_of_le _ _ h1]
    have h2 : length > 2 * n + 4 := by omega
    have h3 : (reader.drop (2 * n + 4)).length < length - (2 * n + 4) := by
      rw [List.length_drop]; omega
    simp only [h2, if_true, discardN_of_gt _ _ h3]
  · rw [readFull_of_gt _ _ (Nat.not_le.mp h1)]

/-- C16: `ReadProxyLineV2` returns a read error, the whole stream being
consumed, when the stream ends before the 16 header bytes, and when after a
header with the signature and version 2 it ends before the bytes the header
calls for: the declared length for LOCAL, the address block (12 bytes for TCP4,
36 for TCP6) and the declared extension for PROXY. -/
theorem v2_truncated (sig reader : List Byte)
    (h : reader.length < 16 ∨
      (16 ≤ reader.length ∧ reader.take 12 = sig ∧
        (decodeHeader reader).VersionCommand.val / 16 = 2 ∧
        (((decodeHeader reader).VersionCommand.val % 16 = 0 ∧
            reader.length < 16 + (decodeHeader reader).Length) ∨
          ((decodeHeader reader).VersionCommand.val % 16 = 1 ∧
            (decodeHeader reader).Protocol = 0x11 ∧
            reader.length < 16 + max (decodeHeader reader).Length 12) ∨
          ((decodeHeader reader).VersionCommand.val % 16 = 1 ∧
            (decodeHeader reader).Protocol = 0x21 ∧
            reader.length < 16 + max (decodeHeader reader).Length 36)))) :
    ReadProxyLineV2 sig reader = (.error .readError, []) := by
  rcases h with h | ⟨h16, hsig, hver, h⟩
  · exact ReadProxyLineV2_short sig reader h
  · rw [ReadProxyLineV2_eq sig reader h16]
    have hs : ¬ (decodeHeader reader).Signature ≠ sig := not_not.mpr hsig
    have hv : ¬ (decodeHeader reader).VersionCommand.val / 16 ≠ Version2 := not_not.mpr hver
    unfold readAfterHeader
    rw [if_neg hs, if_neg hv]
    rcases h with ⟨hcmd, hlen⟩ | ⟨hcmd, hproto, hlen⟩ | ⟨hcmd, hproto, hlen⟩
    · have hc : (decodeHeader reader).VersionCommand.val % 16 = LocalCommand := hcmd
      have hpos : (decodeHeader reader).Length > 0 := by omega
      have hd : (reader.drop 16).length < (decodeHeader reader).Length := by
        rw [List.length_drop]; omega
      rw [if_pos hc, if_pos hpos, discardN_of_gt _ _ hd]
    · have hc : ¬ (decodeHeader reader).VersionCommand.val % 16 = LocalCommand := by
        rw [hcmd]; decide
      have hc2 : ¬ (decodeHeader reader).VersionCommand.val % 16 ≠ ProxyCommand :=
        not_not.mpr hcmd
      have hp : (decodeHeader reader).Protocol = ProtocolTCP4 := hproto
      rw [if_neg hc, if_neg hc2, if_pos hp]
      exact readAddressBlock_truncated TCP4 4 _ _ (by rw [List.length_drop]; omega)
    · have hc : ¬ (decodeHeader reader).VersionCommand.val % 16 = LocalCommand := by
        rw [hcmd]; decide
      have hc2 : ¬ (decodeHeader reader).VersionCommand.val % 16 ≠ ProxyCommand :=
        not_not.mpr hcmd
      have hp4 : ¬ (decodeHeader reader).Protocol = ProtocolTCP4 := by
        rw [hproto]; decide
      have hp : (decodeHeader reader).Protocol = ProtocolTCP6 := hproto
      rw [if_neg hc, if_neg hc2, if_neg hp4, if_pos hp]
      exact readAddressBlock_truncated TCP6 16 _ _ (by rw [List.length_drop]; omega)

/-- Witness for C16: a TCP4 header that declares 15 bytes, followed by 14. -/
theorem v2_truncated_witness :
    ReadProxyLineV2 proxyV2Prefix
        (proxyV2Prefix ++ [0x21, 0x11, 0, 15] ++ [1, 2, 3, 4, 5, 6, 7, 8, 0, 1, 0, 2] ++ [7, 7])
      = (.error .readError, []) :=
  v2_truncated proxyV2Prefix
    (proxyV2Prefix ++ [0x21, 0x11, 0, 15] ++ [1, 2, 3, 4, 5, 6, 7, 8, 0, 1, 0, 2] ++ [7, 7])
    (Or.inr ⟨by decide, by decide, by decide, Or.inr (Or.inl ⟨by decide, by decide, by decide⟩)⟩)

/-! ## Version 1: the first token -/

theorem Split_ne_nil (sep : Byte) (s : GoString) : Split sep s ≠ [] := by
  induction s with
  | nil => simp [Split]
  | cons b t ih =>
    rw [Split]
    split
    · simp
    · split
      · simp
      · simp

theorem Split_token (sep : Byte) (t : GoString) (h : sep ∉ t) : Split sep t = [t] := by
  induction t with
  | nil => rfl
  | cons b u ih =>
    have hb : b ≠ sep := fun e => h (by simp [e])
    have hu : sep ∉ u := fun e => h (by simp [e])
    rw [Split, if_neg hb, ih hu]

theorem Split_cons_token (sep : Byte) (t more : GoString) (h : sep ∉ t) :
    Split sep (t ++ sep :: more) = t :: Split sep more := by
  induction t with
  | nil => simp [Split]
  | cons b u ih =>
    have hb : b ≠ sep := fun e => h (by simp [e])
    have hu : sep ∉ u := fun e => h (by simp [e])
    show Split sep (b :: (u ++ sep :: more)) = _
    rw [Split, if_neg hb, ih hu]

theorem parseTokens_cons (t1 t2 : GoString) (ts : List GoString) :
    parseTokens (t1 :: ts) = parseTokens (t2 :: ts) := by
  simp only [parseTokens, List.getD_cons_succ]

/-- C19: two CRLF-terminated lines that differ in their first space-separated
token only get the same result from `ReadProxyLine`, whether the line is that
token alone or the token, a space and more. -/
theorem v1_first_token_ignored (t1 t2 more rest : GoString)
    (h1 : (32 : Byte) ∉ t1 ∧ (10 : Byte) ∉ t1) (h2 : (32 : Byte) ∉ t2 ∧ (10 : Byte) ∉ t2)
    (hm : (10 : Byte) ∉ more) :
    ReadProxyLine (t1 ++ [13, 10] ++ rest) = ReadProxyLine (t2 ++ [13, 10] ++ rest) ∧
      ReadProxyLine (t1 ++ 32 :: more ++ [13, 10] ++ rest)
        = ReadProxyLine (t2 ++ 32 :: more ++ [13, 10] ++ rest) := by
  constructor
  · rw [ReadProxyLine_line t1 rest h1.2, ReadProxyLine_line t2 rest h2.2]
    simp [proxySep, Split_token 32 t1 h1.1, Split_token 32 t2 h2.1]
  · have e1 : (10 : Byte) ∉ t1 ++ 32 :: more := by
      simp only [List.mem_append, List.mem_cons, not_or]
      exact ⟨h1.2, by decide, hm⟩
    have e2 : (10 : Byte) ∉ t2 ++ 32 :: more := by
      simp only [List.mem_append, List.mem_cons, not_or]
      exact ⟨h2.2, by decide, hm⟩
    rw [ReadProxyLine_line _ rest e1, ReadProxyLine_line _ rest e2]
    simp only [proxySep, Split_cons_token 32 t1 more h1.1, Split_cons_token 32 t2 more h2.1,
      List.length_cons, parseTokens_cons t1 t2]

/-- Witness for C19: the first token "HELLO" in place of "PROXY". -/
theorem v1_first_token_ignored_witness :
    ReadProxyLine (str "HELLO" ++ [13, 10] ++ [])
        = ReadProxyLine (str "PROXY" ++ [13, 10] ++ []) ∧
      ReadProxyLine (str "HELLO" ++ 32 :: str "TCP4 192.168.1.1 10.0.0.1 443 1080"
          ++ [13, 10] ++ [])
        = ReadProxyLine (str "PROXY" ++ 32 :: str "TCP4 192.168.1.1 10.0.0.1 443 1080"
          ++ [13, 10] ++ []) :=
  v1_first_token_ignored (str "HELLO") (str "PROXY") (str "TCP4 192.168.1.1 10.0.0.1 443 1080")
    [] (by decide) (by decide) (by decide)

/-! ## Version 2: the layout of the output and truncated ports -/

theorem copyArray_length (n : Nat) (src : List Byte) : (copyArray n src).length = n := by
  simp only [copyArray, List.length_append, List.length_take, List.length_replicate]
  omega

theorem toUint16_lt (x : Int) : toUint16 x < 65536 := by
  unfold toUint16
  omega

theorem toUint16_cast (x : Int) : ((toUint16 x : Nat) : Int) = x % 65536 := by
  unfold toUint16
  omega

theorem Bytes_TCP4 (sig : List Byte) (p : ProxyLine) (h : p.Protocol = TCP4) :
    Bytes sig p = some
      (writeHeader { Signature := copyArray 12 sig, VersionCommand := 0x21,
                     Protocol := ProtocolTCP4, Length := 12 }
        ++ writeAddress
          { Source := copyArray 4 (To4 p.Source.IP)
            Destination := copyArray 4 (To4 p.Destination.IP)
            SourcePort := toUint16 p.Source.Port
            DestinationPort := toUint16 p.Destination.Port }) := by
  simp only [Bytes, h, if_true]
  rfl

theorem Bytes_TCP6 (sig : List Byte) (p : ProxyLine) (h : p.Protocol = TCP6) :
    Bytes sig p = some
      (writeHeader { Signature := copyArray 12 sig, VersionCommand := 0x21,
                     Protocol := ProtocolTCP6, Length := 36 }
        ++ writeAddress
          { Source := copyArray 16 (To16 p.Source.IP)
            Destination := copyArray 16 (To16 p.Destination.IP)
            SourcePort := toUint16 p.Source.Port
            DestinationPort := toUint16 p.Destination.Port }) := by
  have hne : TCP6 ≠ TCP4 := by decide
  simp only [Bytes, h, hne, if_false, if_true]
  rfl

theorem readAfterHeader_proxy4 (sig : List Byte) (L : Nat) (rest : List Byte) :
    readAfterHeader sig { Signature := sig, VersionCommand := 0x21,
                          Protocol := ProtocolTCP4, Length := L } rest
      = readAddressBlock TCP4 4 L rest := by
  have hver : ((0x21 : Byte).val / 16 ≠ Version2) = False := by decide
  have hloc : ((0x21 : Byte).val % 16 = LocalCommand) = False := by decide
  have hcmd : ((0x21 : Byte).val % 16 ≠ ProxyCommand) = False := by decide
  simp only [readAfterHeader, hver, hloc, hcmd, ne_eq, not_true_eq_false, if_false, if_true]

theorem readAfterHeader_proxy6 (sig : List Byte) (L : Nat) (rest : List Byte) :
    readAfterHeader sig { Signature := sig, VersionCommand := 0x21,
                          Protocol := ProtocolTCP6, Length := L } rest
      = readAddressBlock TCP6 16 L rest := by
  have hver : ((0x21 : Byte).val / 16 ≠ Version2) = False := by decide
  have hloc : ((0x21 : Byte).val % 16 = LocalCommand) = False := by decide
  have hcmd : ((0x21 : Byte).val % 16 ≠ ProxyCommand) = False := by decide
  have h64 : ProtocolTCP6 ≠ ProtocolTCP4 := by decide
  simp only [readAfterHeader, hver, hloc, hcmd, h64, ne_eq, not_true_eq_false, if_false,
    if_true]

theorem v2_read_back4 (sig : List Byte) (p : ProxyLine) (hsig : sig.length = 12) :
    ReadProxyLineV2 sig
        (writeHeader { Signature := copyArray 12 sig, VersionCommand := 0x21,
                       Protocol := ProtocolTCP4, Length := 12 }
          ++ writeAddress
            { Source := copyArray 4 (To4 p.Source.IP)
              Destination := copyArray 4 (To4 p.Destination.IP)
              SourcePort := toUint16 p.Source.Port
              DestinationPort := toUint16 p.Destination.Port })
      = (.ok (some
          { Protocol := TCP4
            Source := { IP := copyArray 4 (To4 p.Source.IP), Port := p.Source.Port % 65536 }
            Destination := { IP := copyArray 4 (To4 p.Destination.IP),
                             Port := p.Destination.Port % 65536 } }), []) := by
  rw [ReadProxyLineV2_writeHeader sig _ (by simp [copyArray_length]) (by simp),
    copyArray_of_length 12 sig hsig, readAfterHeader_proxy4]
  have := readAddressBlock_writeAddress TCP4 4
    { Source := copyArray 4 (To4 p.Source.IP)
      Destination := copyArray 4 (To4 p.Destination.IP)
      SourcePort := toUint16 p.Source.Port
      DestinationPort := toUint16 p.Destination.Port }
    (copyArray_length _ _) (copyArray_length _ _) (toUint16_lt _) (toUint16_lt _)
  simp only [toUint16_cast] at this
  exact this

theorem v2_read_back6 (sig : List Byte) (p : ProxyLine) (hsig : sig.length = 12) :
    ReadProxyLineV2 sig
        (writeHeader { Signature := copyArray 12 sig, VersionCommand := 0x21,
                       Protocol := ProtocolTCP6, Length := 36 }
          ++ writeAddress
            { Source := copyArray 16 (To16 p.Source.IP)
              Destination := copyArray 16 (To16 p.Destination.IP)
              SourcePort := toUint16 p.Source.Port
              DestinationPort := toUint16 p.Destination.Port })
      = (.ok (some
          { Protocol := TCP6
            Source := { IP := copyArray 16 (To16 p.Source.IP), Port := p.Source.Port % 65536 }
            Destination := { IP := copyArray 16 (To16 p.Destination.IP),
                             Port := p.Destination.Port % 65536 } }), []) := by
  rw [ReadProxyLineV2_writeHeader sig _ (by simp [copyArray_length]) (by simp),
    copyArray_of_length 12 sig hsig, readAfterHeader_proxy6]
  have := readAddressBlock_writeAddress TCP6 16
    { Source := copyArray 16 (To16 p.Source.IP)
      Destination := copyArray 16 (To16 p.Destination.IP)
      SourcePort := toUint16 p.Source.Port
      DestinationPort := toUint16 p.Destination.Port }
    (copyArray_length _ _) (copyArray_length _ _) (toUint16_lt _) (toUint16_lt _)
  simp only [toUint16_cast] at this
  exact this

theorem drop_ports (pre : List Byte) (a b : Nat) :
    (pre ++ putUint16 a ++ putUint16 b).drop ((pre ++ putUint16 a ++ putUint16 b).length - 4)
      = putUint16 a ++ putUint16 b := by
  have e : (pre ++ putUint16 a ++ putUint16 b).length - 4 = pre.length := by
    simp [putUint16]
  rw [e, List.append_assoc, List.drop_left]

theorem writeAddress_ports (h : List Byte) (a : proxyV2Address) :
    (h ++ writeAddress a).drop ((h ++ writeAddress a).length - 4)
      = putUint16 a.SourcePort ++ putUint16 a.DestinationPort := by
  have e : h ++ writeAddress a
      = (h ++ a.Source ++ a.Destination) ++ putUint16 a.SourcePort
          ++ putUint16 a.DestinationPort := by
    simp [writeAddress]
  rw [e, drop_ports]

/-- C20: for a ProxyLine with Protocol TCP4 or TCP6 and any ports, the last four
bytes of `Bytes`, the two port fields, hold the ports modulo 65536 in
big-endian order; `ReadProxyLineV2` reads the output without error and returns
the ports modulo 65536, which differ from the ports of the line when these lie
outside [0, 65535]. -/
theorem v2_ports_truncated (sig : List Byte) (p : ProxyLine) (hsig : sig.length = 12)
    (hp : p.Protocol = TCP4 ∨ p.Protocol = TCP6) :
    ∃ bs q, Bytes sig p = some bs ∧
      bs.drop (bs.length - 4)
        = putUint16 (p.Source.Port % 65536).toNat
            ++ putUint16 (p.Destination.Port % 65536).toNat ∧
      ReadProxyLineV2 sig bs = (.ok (some q), []) ∧
      q.Source.Port = p.Source.Port % 65536 ∧
      q.Destination.Port = p.Destination.Port % 65536 ∧
      ((p.Source.Port < 0 ∨ 65535 < p.Source.Port) → q.Source.Port ≠ p.Source.Port) ∧
      ((p.Destination.Port < 0 ∨ 65535 < p.Destination.Port) →
        q.Destination.Port ≠ p.Destination.Port) := by
  rcases hp with hp | hp
  · refine ⟨_, _, Bytes_TCP4 sig p hp, ?_, v2_read_back4 sig p hsig, rfl, rfl, ?_, ?_⟩
    · rw [writeAddress_ports]; rfl
    · intro h; simp only; omega
    · intro h; simp only; omega
  · refine ⟨_, _, Bytes_TCP6 sig p hp, ?_, v2_read_back6 sig p hsig, rfl, rfl, ?_, ?_⟩
    · rw [writeAddress_ports]; rfl
    · intro h; simp only; omega
    · intro h; simp only; omega

/-- Witness for C20: the ports 70000 and -1. -/
theorem v2_ports_truncated_witness :
    ∃ bs q, Bytes proxyV2Prefix
        { Protocol := TCP4
          Source := { IP := [192, 168, 1, 1], Port := 70000 }
          Destination := { IP := [10, 0, 0, 1], Port := -1 } } = some bs ∧
      bs.drop (bs.length - 4)
        = putUint16 ((70000 : Int) % 65536).toNat ++ putUint16 ((-1 : Int) % 65536).toNat ∧
      ReadProxyLineV2 proxyV2Prefix bs = (.ok (some q), []) ∧
      q.Source.Port = (70000 : Int) % 65536 ∧
      q.Destination.Port = (-1 : Int) % 65536 ∧
      (((70000 : Int) < 0 ∨ 65535 < (70000 : Int)) → q.Source.Port ≠ 70000) ∧
      (((-1 : Int) < 0 ∨ 65535 < (-1 : Int)) → q.Destination.Port ≠ -1) :=
  v2_ports_truncated proxyV2Prefix
    { Protocol := TCP4
      Source := { IP := [192, 168, 1, 1], Port := 70000 }
      Destination := { IP := [10, 0, 0, 1], Port := -1 } }
    (by decide) (Or.inl rfl)

theorem toUint16_toNat (x : Int) (h0 : 0 ≤ x) (h1 : x ≤ 65535) : toUint16 x = x.toNat := by
  unfold toUint16
  omega

/-- C12: for a ProxyLine with Protocol TCP4 (resp. TCP6) and ports in
[0, 65535], `Bytes` is the 12-byte signature, the byte 0x21, the protocol code
0x11 (resp. 0x21), the length 12 (resp. 36) in two big-endian bytes, the source
and destination addresses in 4 (resp. 16) bytes each, which are the bytes of
the address when it has that length, and the two ports in big-endian order:
28 (resp. 52) bytes in all. -/
theorem v2_encode_layout (sig : List Byte) (p : ProxyLine) (hsig : sig.length = 12)
    (hs : 0 ≤ p.Source.Port ∧ p.Source.Port ≤ 65535)
    (hd : 0 ≤ p.Destination.Port ∧ p.Destination.Port ≤ 65535) :
    (p.Protocol = TCP4 →
      Bytes sig p = some
          (sig ++ [0x21, 0x11, 0, 12] ++ copyArray 4 (To4 p.Source.IP)
            ++ copyArray 4 (To4 p.Destination.IP)
            ++ putUint16 p.Source.Port.toNat ++ putUint16 p.Destination.Port.toNat) ∧
        (copyArray 4 (To4 p.Source.IP)).length = 4 ∧
        (copyArray 4 (To4 p.Destination.IP)).length = 4 ∧
        (p.Source.IP.length = 4 → copyArray 4 (To4 p.Source.IP) = p.Source.IP) ∧
        (p.Destination.IP.length = 4 →
          copyArray 4 (To4 p.Destination.IP) = p.Destination.IP) ∧
        (sig ++ [0x21, 0x11, 0, 12] ++ copyArray 4 (To4 p.Source.IP)
            ++ copyArray 4 (To4 p.Destination.IP)
            ++ putUint16 p.Source.Port.toNat ++ putUint16 p.Destination.Port.toNat).length
          = 28) ∧
    (p.Protocol = TCP6 →
      Bytes sig p = some
          (sig ++ [0x21, 0x21, 0, 36] ++ copyArray 16 (To16 p.Source.IP)
            ++ copyArray 16 (To16 p.Destination.IP)
            ++ putUint16 p.Source.Port.toNat ++ putUint16 p.Destination.Port.toNat) ∧
        (copyArray 16 (To16 p.Source.IP)).length = 16 ∧
        (copyArray 16 (To16 p.Destination.IP)).length = 16 ∧
        (p.Source.IP.length = 16 → copyArray 16 (To16 p.Source.IP) = p.Source.IP) ∧
        (p.Destination.IP.length = 16 →
          copyArray 16 (To16 p.Destination.IP) = p.Destination.IP) ∧
        (sig ++ [0x21, 0x21, 0, 36] ++ copyArray 16 (To16 p.Source.IP)
            ++ copyArray 16 (To16 p.Destination.IP)
            ++ putUint16 p.Source.Port.toNat ++ putUint16 p.Destination.Port.toNat).length
          = 52) := by
  have e12 : putUint16 12 = [0, 12] := by decide
  have e36 : putUint16 36 = [0, 36] := by decide
  constructor
  · intro hp
    refine ⟨?_, copyArray_length _ _, copyArray_length _ _, ?_, ?_, ?_⟩
    · rw [Bytes_TCP4 sig p hp]
      simp only [writeHeader, writeAddress, copyArray_of_length 12 sig hsig, e12,
        toUint16_toNat _ hs.1 hs.2, toUint16_toNat _ hd.1 hd.2, ProtocolTCP4,
        List.append_assoc, List.cons_append, List.nil_append]
    · intro h; rw [To4_of_length _ h, copyArray_of_length 4 _ h]
    · intro h; rw [To4_of_length _ h, copyArray_of_length 4 _ h]
    · simp [copyArray_length, hsig, putUint16]
  · intro hp
    refine ⟨?_, copyArray_length _ _, copyArray_length _ _, ?_, ?_, ?_⟩
    · rw [Bytes_TCP6 sig p hp]
      simp only [writeHeader, writeAddress, copyArray_of_length 12 sig hsig, e36,
        toUint16_toNat _ hs.1 hs.2, toUint16_toNat _ hd.1 hd.2, ProtocolTCP6,
        List.append_assoc, List.cons_append, List.nil_append]
    · intro h; rw [To16_of_length _ h, copyArray_of_length 16 _ h]
    · intro h; rw [To16_of_length _ h, copyArray_of_length 16 _ h]
    · simp [copyArray_length, hsig, putUint16]

/-- Witness for C12: the line TCP4 192.168.1.1:443 to 10.0.0.1:1080. -/
theorem v2_encode_layout_witness :
    Bytes proxyV2Prefix
        { Protocol := TCP4
          Source := { IP := [192, 168, 1, 1], Port := 443 }
          Destination := { IP := [10, 0, 0, 1], Port := 1080 } }
      = some [0x0D, 0x0A, 0x0D, 0x0A, 0x00, 0x0D, 0x0A, 0x51, 0x55, 0x49, 0x54, 0x0A,
          0x21, 0x11, 0, 12, 192, 168, 1, 1, 10, 0, 0, 1, 1, 187, 4, 56] :=
  ((v2_encode_layout proxyV2Prefix
    { Protocol := TCP4
      Source := { IP := [192, 168, 1, 1], Port := 443 }
      Destination := { IP := [10, 0, 0, 1], Port := 1080 } }
    (by decide) (by decide) (by decide)).1 rfl).1

/-! ## Decimal texts and the port validator -/

theorem digitChar_val (m : Nat) (hm : m < 10) :
    ((Fin.ofNat (Nat.digitChar m).toNat : Byte)).val = 48 + m := by
  interval_cases m <;> rfl

theorem digitsValue_append (k : Nat) (xs ys : GoString) :
    digitsValue k (xs ++ ys) = (digitsValue k xs).bind fun v => digitsValue v ys := by
  induction xs generalizing k with
  | nil => rfl
  | cons b t ih =>
    simp only [List.cons_append, digitsValue]
    split
    · exact ih _
    · rfl

theorem toDigitsCore_decimal (fuel n : Nat) (acc : List Char) (hfuel : n < fuel) :
    ∃ ds : List Char, ds ≠ [] ∧ Nat.toDigitsCore 10 fuel n acc = ds ++ acc ∧
      (∀ c ∈ ds, 48 ≤ ((Fin.ofNat c.toNat : Byte)).val ∧ ((Fin.ofNat c.toNat : Byte)).val ≤ 57) ∧
      (n = 0 ∨ (ds.map fun c => (Fin.ofNat c.toNat : Byte)).head? ≠ some 48) ∧
      ∀ k, digitsValue k (ds.map fun c => (Fin.ofNat c.toNat : Byte))
        = some (k * 10 ^ ds.length + n) := by
  induction fuel generalizing n acc with
  | zero => omega
  | succ fuel ih =>
    have hd := digitChar_val (n % 10) (Nat.mod_lt _ (by decide))
    by_cases h0 : n / 10 = 0
    · have hlt : n < 10 := by omega
      refine ⟨[Nat.digitChar (n % 10)], by simp, ?_, ?_, ?_, ?_⟩
      · simp [Nat.toDigitsCore, h0]
      · intro c hc
        simp only [List.mem_singleton] at hc
        subst hc
        omega
      · by_cases hz : n = 0
        · exact Or.inl hz
        · right
          simp only [List.map_cons, List.map_nil, List.head?_cons, ne_eq, Option.some.injEq]
          intro e
          have := congrArg Fin.val e
          rw [hd] at this
          simp at this
          omega
      · intro k
        have hm : n % 10 = n := Nat.mod_eq_of_lt hlt
        simp only [List.map_cons, List.map_nil, digitsValue, hd, List.length_singleton,
          pow_one]
        rw [if_pos (by omega)]
        congr 1
        omega
    · have hq : n / 10 < fuel := by omega
      obtain ⟨ds, hne, e, hdig, hlead, hval⟩ := ih (n / 10) (Nat.digitChar (n % 10) :: acc) hq
      refine ⟨ds ++ [Nat.digitChar (n % 10)], by simp, ?_, ?_, ?_, ?_⟩
      · simp [Nat.toDigitsCore, h0, e]
      · intro c hc
        rcases List.mem_append.mp hc with hc | hc
        · exact hdig c hc
        · simp only [List.mem_singleton] at hc
          subst hc
          omega
      · right
        rcases hlead with hz | hz
        · exact absurd hz h0
        · cases ds with
          | nil => exact absurd rfl hne
          | cons c cs => simpa using hz
      · intro k
        rw [List.map_append, digitsValue_append, hval k]
        simp only [Option.bind, List.map_cons, List.map_nil, digitsValue, hd,
          List.length_append, List.length_singleton]
        rw [if_pos (by omega)]
        congr 1
        rw [pow_succ]
        have : n = 10 * (n / 10) + n % 10 := (Nat.div_add_mod n 10).symm
        have e2 : 48 + n % 10 - 48 = n % 10 := by omega
        rw [e2]
        generalize 10 ^ ds.length = P
        generalize n / 10 = q at this
        generalize n % 10 = r at this
        subst this
        ring

theorem formatNat_decimal (n : Nat) :
    formatNat n ≠ [] ∧
      (∀ b ∈ formatNat n, 48 ≤ b.val ∧ b.val ≤ 57) ∧
      (1 < (formatNat n).length → (formatNat n).head? ≠ some 48) ∧
      ∀ k, digitsValue k (formatNat n) = some (k * 10 ^ (formatNat n).length + n) := by
  obtain ⟨ds, hne, e, hdig, hlead, hval⟩ := toDigitsCore_decimal (n + 1) n [] (by omega)
  have ef : formatNat n = ds.map fun c => (Fin.ofNat c.toNat : Byte) := by
    simp only [formatNat, Nat.toDigits, e, List.append_nil]
  rw [ef]
  refine ⟨by simpa using hne, ?_, ?_, by simpa using hval⟩
  · intro b hb
    obtain ⟨c, hc, rfl⟩ := List.mem_map.mp hb
    exact hdig c hc
  · intro hlen
    rcases hlead with hz | hz
    · subst hz
      rw [← ef] at hlen
      exact absurd hlen (by decide)
    · exact hz

theorem digitsValue_formatNat (n : Nat) : digitsValue 0 (formatNat n) = some n := by
  have := (formatNat_decimal n).2.2.2 0
  simpa using this

theorem formatNat_head (n : Nat) :
    ∃ b t, formatNat n = b :: t ∧ 48 ≤ b.val ∧ b.val ≤ 57 := by
  obtain ⟨hne, hdig, _, _⟩ := formatNat_decimal n
  cases h : formatNat n with
  | nil => exact absurd h hne
  | cons b t => exact ⟨b, t, rfl, hdig b (by rw [h]; simp)⟩

theorem Atoi_formatNat (n : Nat) :
    Atoi (formatNat n) = if (n : Int) ≤ 9223372036854775807 then some (n : Int) else none := by
  obtain ⟨b, t, e, h1, h2⟩ := formatNat_head n
  have hv := digitsValue_formatNat n
  rw [e] at hv
  have hb45 : b ≠ 45 := fun h => by rw [h] at h1; exact absurd h1 (by decide)
  have hb43 : b ≠ 43 := fun h => by rw [h] at h1; exact absurd h1 (by decide)
  simp only [Atoi, e, List.head?_cons, Option.some.injEq, hb45, hb43, or_self, if_false,
    hv, Bool.false_eq_true, decide_False]
  rw [if_neg (List.cons_ne_nil _ _)]
  by_cases hle : (n : Int) ≤ 9223372036854775807
  · rw [if_pos hle, if_neg (by omega)]
  · rw [if_neg hle, if_pos (by omega)]

theorem Atoi_neg_formatNat (n : Nat) :
    Atoi (45 :: formatNat n)
      = if -(n : Int) < -9223372036854775808 then none else some (-(n : Int)) := by
  obtain ⟨hne, _, _, _⟩ := formatNat_decimal n
  have hv := digitsValue_formatNat n
  simp only [Atoi, List.head?_cons, true_or, if_true, List.tail_cons, hne, if_false, hv,
    decide_True]
  by_cases hle : -(n : Int) < -9223372036854775808
  · rw [if_pos hle, if_pos (Or.inl hle)]
  · rw [if_neg hle, if_neg (by omega)]

theorem Atoi_formatInt (p : Int) :
    Atoi (formatInt p)
      = if -9223372036854775808 ≤ p ∧ p ≤ 9223372036854775807 then some p else none := by
  unfold formatInt
  by_cases h : p < 0
  · rw [if_pos h, Atoi_neg_formatNat]
    have e : ((-p).toNat : Int) = -p := Int.toNat_of_nonneg (by omega)
    rw [e]
    split
    · rename_i h1
      rw [if_neg (by omega)]
    · rename_i h1
      rw [if_pos (by omega)]
      simp
  · rw [if_neg h, Atoi_formatNat]
    have e : (p.toNat : Int) = p := Int.toNat_of_nonneg (by omega)
    rw [e]
    split
    · rename_i h1
      rw [if_pos (by omega)]
    · rename_i h1
      rw [if_neg (by omega)]

theorem digitsValue_some (s : GoString) : ∀ (k v : Nat), digitsValue k s = some v →
    ∀ b ∈ s, 48 ≤ b.val ∧ b.val ≤ 57 := by
  induction s with
  | nil => intro k v _ b hb; simp at hb
  | cons c t ih =>
    intro k v h b hb
    rw [digitsValue] at h
    by_cases hc : 48 ≤ c.val ∧ c.val ≤ 57
    · rw [if_pos hc] at h
      rcases List.mem_cons.mp hb with e | e
      · rw [e]; exact hc
      · exact ih _ _ h b e
    · rw [if_neg hc] at h
      cases h

theorem Atoi_digits (neg : Bool) (digits : GoString) (v : Int)
    (h : (if digits = [] then none
      else
        match digitsValue 0 digits with
        | none => none
        | some n =>
          if (if neg then -(n : Int) else (n : Int)) < -9223372036854775808 ∨
              9223372036854775807 < (if neg then -(n : Int) else (n : Int)) then none
          else some (if neg then -(n : Int) else (n : Int))) = some v) :
    digits ≠ [] ∧ ∀ b ∈ digits, 48 ≤ b.val ∧ b.val ≤ 57 := by
  by_cases hd : digits = []
  · rw [if_pos hd] at h; cases h
  · rw [if_neg hd] at h
    cases hv : digitsValue 0 digits with
    | none => rw [hv] at h; cases h
    | some n => exact ⟨hd, digitsValue_some _ _ _ hv⟩

theorem Atoi_some (s : GoString) (v : Int) (h : Atoi s = some v) :
    ∃ ds : GoString, ds ≠ [] ∧ (∀ b ∈ ds, 48 ≤ b.val ∧ b.val ≤ 57) ∧
      (s = ds ∨ s = 45 :: ds ∨ s = 43 :: ds) := by
  cases s with
  | nil => cases h
  | cons b t =>
    by_cases hb : b = 45
    · subst hb
      have h2 := Atoi_digits true t v h
      exact ⟨t, h2.1, h2.2, Or.inr (Or.inl rfl)⟩
    · by_cases hb2 : b = 43
      · subst hb2
        have h2 := Atoi_digits false t v h
        exact ⟨t, h2.1, h2.2, Or.inr (Or.inr rfl)⟩
      · have h3 : Atoi (b :: t) = (if b :: t = [] then none
            else
              match digitsValue 0 (b :: t) with
              | none => none
              | some n =>
                if (if false then -(n : Int) else (n : Int)) < -9223372036854775808 ∨
                    9223372036854775807 < (if false then -(n : Int) else (n : Int)) then none
                else some (if false then -(n : Int) else (n : Int))) := by
          simp [Atoi, hb, hb2]
        rw [h3] at h
        have h2 := Atoi_digits false (b :: t) v h
        exact ⟨b :: t, h2.1, h2.2, Or.inl rfl⟩

/-- C11: `parsePortNumber` applied to the decimal text of an integer p returns p
without error when 0 <= p <= 65535 and an error when p < 0 or p > 65535; on a
text that is not an optional sign followed by decimal digits it returns the
error "bad port"; and a result without error lies in [0, 65535]. -/
theorem port_validator (p : Int) (s : GoString) :
    ((0 ≤ p ∧ p ≤ 65535) → parsePortNumber (formatInt p) = .ok p) ∧
      ((p < 0 ∨ 65535 < p) →
        parsePortNumber (formatInt p) = .error .portNotInRange ∨
          parsePortNumber (formatInt p) = .error .badPort) ∧
      ((¬ ∃ ds : GoString, ds ≠ [] ∧ (∀ b ∈ ds, 48 ≤ b.val ∧ b.val ≤ 57) ∧
          (s = ds ∨ s = 45 :: ds ∨ s = 43 :: ds)) →
        parsePortNumber s = .error .badPort) ∧
      (∀ v, parsePortNumber s = .ok v → 0 ≤ v ∧ v ≤ 65535) := by
  refine ⟨?_, ?_, ?_, ?_⟩
  · intro h
    simp only [parsePortNumber, Atoi_formatInt]
    rw [if_pos (by omega)]
    simp only
    rw [if_neg (by omega)]
  · intro h
    simp only [parsePortNumber, Atoi_formatInt]
    by_cases hr : -9223372036854775808 ≤ p ∧ p ≤ 9223372036854775807
    · left
      rw [if_pos hr]
      simp only
      rw [if_pos (by omega)]
    · right
      rw [if_neg hr]
  · intro h
    cases ha : Atoi s with
    | none => simp only [parsePortNumber, ha]
    | some v => exact absurd (Atoi_some s v ha) h
  · intro v h
    unfold parsePortNumber at h
    cases ha : Atoi s with
    | none => rw [ha] at h; cases h
    | some w =>
      rw [ha] at h
      simp only at h
      by_cases hw : w < 0 ∨ w > 65535
      · rw [if_pos hw] at h; cases h
      · rw [if_neg hw] at h
        cases h
        omega

/-- Witness for C11: the port 443 and the text "4a". -/
theorem port_validator_witness :
    parsePortNumber (formatInt 443) = .ok 443 ∧
      parsePortNumber (str "4a") = .error .badPort :=
  have h := port_validator 443 (str "4a")
  ⟨h.1 (by decide), h.2.2.1 (by
    rintro ⟨ds, _, hd, e | e | e⟩
    · have := hd 97 (by rw [← e]; decide)
      exact absurd this (by decide)
    · have hh : (str "4a").head? = some 45 := congrArg List.head? e
      exact absurd hh (by decide)
    · have hh : (str "4a").head? = some 43 := congrArg List.head? e
      exact absurd hh (by decide))⟩

/-! ## Version 1: dotted-decimal addresses and the TCP4 line -/

theorem digitsValue_le (s : GoString) : ∀ (k v : Nat), digitsValue k s = some v → k ≤ v := by
  induction s with
  | nil => intro k v h; simp only [digitsValue, Option.some.injEq] at h; omega
  | cons c t ih =>
    intro k v h
    rw [digitsValue] at h
    by_cases hc : 48 ≤ c.val ∧ c.val ≤ 57
    · rw [if_pos hc] at h
      have := ih _ _ h
      omega
    · rw [if_neg hc] at h
      cases h

theorem dtoiLoop_end (k i : Nat) (rest : GoString) (hr : ∀ c, rest.head? = some c → ¬ (48 ≤ c.val ∧ c.val ≤ 57)) (hi : i ≠ 0) :
    dtoiLoop k i rest = (k, i, true) := by
  cases rest with
  | nil => simp [dtoiLoop, hi]
  | cons c r =>
    have := hr c rfl
    simp [dtoiLoop, this, hi]

theorem dtoiLoop_digits (ds : GoString) : ∀ (k i v : Nat) (rest : GoString),
    digitsValue k ds = some v → v < big →
    (∀ c, rest.head? = some c → ¬ (48 ≤ c.val ∧ c.val ≤ 57)) → (ds ≠ [] ∨ i ≠ 0) →
    dtoiLoop k i (ds ++ rest) = (v, i + ds.length, true) := by
  induction ds with
  | nil =>
    intro k i v rest hv _ hr hne
    simp only [digitsValue, Option.some.injEq] at hv
    subst hv
    rcases hne with h | h
    · exact absurd rfl h
    · simpa using dtoiLoop_end k i rest hr h
  | cons c t ih =>
    intro k i v rest hv hbig hr _
    rw [digitsValue] at hv
    by_cases hc : 48 ≤ c.val ∧ c.val ≤ 57
    · rw [if_pos hc] at hv
      have hle := digitsValue_le _ _ _ hv
      have hlt : ¬ k * 10 + (c.val - 48) ≥ big := by omega
      show dtoiLoop k i (c :: (t ++ rest)) = _
      rw [dtoiLoop, if_pos hc, if_neg hlt, ih _ _ _ _ hv hbig hr (Or.inr (by omega))]
      simp only [List.length_cons, Prod.mk.injEq, and_true, true_and]
      omega
    · rw [if_neg hc] at hv
      cases hv

theorem dtoi_formatNat (n : Nat) (hn : n < 256) (rest : GoString) (hr : ∀ c, rest.head? = some c → ¬ (48 ≤ c.val ∧ c.val ≤ 57)) :
    dtoi (formatNat n ++ rest) = (n, (formatNat n).length, true) := by
  obtain ⟨hne, _, _, _⟩ := formatNat_decimal n
  have := dtoiLoop_digits (formatNat n) 0 0 n rest (digitsValue_formatNat n)
    (by unfold big; omega) hr (Or.inl hne)
  simpa [dtoi] using this

theorem ofNat_val (a : Byte) : (Fin.ofNat a.val : Byte) = a := by
  apply Fin.ext
  simp only [Fin.ofNat]
  omega

theorem head_formatNat_append (n : Nat) (rest : GoString) :
    (formatNat n ++ rest).head? = (formatNat n).head? := by
  obtain ⟨b, t, e, _, _⟩ := formatNat_head n
  rw [e]
  rfl

theorem parseIPv4Loop_octet (k : Nat) (first : Bool) (a : Byte) (rest : GoString)
    (hr : ∀ c, rest.head? = some c → ¬ (48 ≤ c.val ∧ c.val ≤ 57)) :
    parseIPv4Loop (k + 1) first
        ((if first then [] else [46]) ++ formatNat a.val ++ rest)
      = match parseIPv4Loop k false rest with
        | none => none
        | some (p, r) => some (a :: p, r) := by
  obtain ⟨hne, _, hlead, _⟩ := formatNat_decimal a.val
  have hd := dtoi_formatNat a.val a.isLt rest hr
  have hlen : (formatNat a.val).length ≠ 0 := by
    rw [ne_eq, List.length_eq_zero]; exact hne
  have hzero : ¬ ((formatNat a.val).length > 1 ∧ (formatNat a.val ++ rest).head? = some 48) := by
    rintro ⟨h1, h2⟩
    rw [head_formatNat_append] at h2
    exact hlead h1 h2
  have hff : ¬ a.val > 0xFF := by have := a.isLt; omega
  cases first with
  | true =>
    simp only [if_true, List.nil_append, parseIPv4Loop, List.length_append, hd,
      Bool.not_true, Bool.false_and, Bool.false_eq_true, if_false, Bool.not_true,
      Bool.false_or, decide_eq_true_eq, hff, Bool.and_eq_true, hzero,
      List.drop_left, ofNat_val]
    rw [if_neg (by omega)]
  | false =>
    simp only [Bool.false_eq_true, if_false, List.cons_append, List.nil_append, parseIPv4Loop,
      List.length_cons, List.length_append, List.head?_cons, ne_eq, not_true_eq_false,
      decide_False, Bool.and_false, List.tail_cons, hd, Bool.not_true, Bool.false_or,
      decide_eq_true_eq, hff, Bool.and_eq_true, hzero, List.drop_left, ofNat_val]
    rw [if_neg (by omega)]

theorem head_dot_not_digit (r : GoString) :
    ∀ c, ((46 : Byte) :: r).head? = some c → ¬ (48 ≤ c.val ∧ c.val ≤ 57) := by
  intro c h
  simp only [List.head?_cons, Option.some.injEq] at h
  subst h
  decide

theorem head_nil_not_digit :
    ∀ c : Byte, ([] : GoString).head? = some c → ¬ (48 ≤ c.val ∧ c.val ≤ 57) := by
  intro c h
  cases h

theorem parseIPv4_dottedDecimal (a b c d : Byte) :
    parseIPv4 (dottedDecimal a b c d) = IPv4 a b c d := by
  have e : dottedDecimal a b c d
      = (if true then [] else [46]) ++ formatNat a.val
        ++ ((if false then [] else [46]) ++ formatNat b.val
          ++ ((if false then [] else [46]) ++ formatNat c.val
            ++ ((if false then [] else [46]) ++ formatNat d.val ++ []))) := by
    simp [dottedDecimal]
  have h4 := parseIPv4Loop_octet 0 false d [] head_nil_not_digit
  have h3 := parseIPv4Loop_octet 1 false c
    ((if false then [] else [46]) ++ formatNat d.val ++ []) (head_dot_not_digit _)
  have h2 := parseIPv4Loop_octet 2 false b
    ((if false then [] else [46]) ++ formatNat c.val
      ++ ((if false then [] else [46]) ++ formatNat d.val ++ [])) (head_dot_not_digit _)
  have h1 := parseIPv4Loop_octet 3 true a
    ((if false then [] else [46]) ++ formatNat b.val
      ++ ((if false then [] else [46]) ++ formatNat c.val
        ++ ((if false then [] else [46]) ++ formatNat d.val ++ []))) (head_dot_not_digit _)
  rw [h4] at h3
  rw [h3] at h2
  rw [h2] at h1
  rw [parseIPv4, e, h1]
  rfl

theorem ParseIPScan_dot (s ds r : GoString) (h : ∀ b ∈ ds, 48 ≤ b.val ∧ b.val ≤ 57) :
    ParseIPScan s (ds ++ 46 :: r) = parseIPv4 s := by
  induction ds with
  | nil => simp [ParseIPScan]
  | cons b t ih =>
    have hb := h b (by simp)
    have h1 : b ≠ 46 := fun e => by rw [e] at hb; exact absurd hb (by decide)
    have h2 : b ≠ 58 := fun e => by rw [e] at hb; exact absurd hb (by decide)
    show ParseIPScan s (b :: (t ++ 46 :: r)) = _
    rw [ParseIPScan, if_neg h1, if_neg h2]
    exact ih fun x hx => h x (by simp [hx])

theorem ParseIP_dottedDecimal (a b c d : Byte) :
    ParseIP (dottedDecimal a b c d) = IPv4 a b c d := by
  have e : dottedDecimal a b c d
      = formatNat a.val ++ 46 :: (formatNat b.val ++ [46] ++ formatNat c.val ++ [46]
          ++ formatNat d.val) := by
    simp [dottedDecimal]
  rw [ParseIP]
  conv => lhs; arg 2; rw [e]
  rw [ParseIPScan_dot _ _ _ (formatNat_decimal a.val).2.1, parseIPv4_dottedDecimal]

theorem To4_IPv4 (a b c d : Byte) : To4 (IPv4 a b c d) = [a, b, c, d] := by
  simp [To4, IPv4, v4InV6Prefix, IPv4len, IPv6len]

theorem parseIP_TCP4_dottedDecimal (a b c d : Byte) :
    parseIP TCP4 (dottedDecimal a b c d) = .ok (IPv4 a b c d) := by
  simp [parseIP, ParseIP_dottedDecimal, To4_IPv4]
  simp [IPv4, v4InV6Prefix]

theorem not_mem_of_digits (x : Byte) (hx : ¬ (48 ≤ x.val ∧ x.val ≤ 57)) (s : GoString)
    (h : ∀ b ∈ s, 48 ≤ b.val ∧ b.val ≤ 57) : x ∉ s :=
  fun hm => hx (h x hm)

theorem not_mem_formatNat (x : Byte) (hx : ¬ (48 ≤ x.val ∧ x.val ≤ 57)) (n : Nat) :
    x ∉ formatNat n :=
  not_mem_of_digits x hx _ (formatNat_decimal n).2.1

theorem not_mem_dottedDecimal (x : Byte) (hx : ¬ (48 ≤ x.val ∧ x.val ≤ 57)) (h46 : x ≠ 46)
    (a b c d : Byte) : x ∉ dottedDecimal a b c d := by
  simp only [dottedDecimal, List.mem_append, List.mem_singleton, not_or]
  exact ⟨⟨⟨⟨⟨⟨not_mem_formatNat x hx _, h46⟩, not_mem_formatNat x hx _⟩, h46⟩,
    not_mem_formatNat x hx _⟩, h46⟩, not_mem_formatNat x hx _⟩

theorem ReadProxyLine_six_tokens (t0 t1 t2 t3 t4 t5 rest : GoString)
    (h0 : (32 : Byte) ∉ t0 ∧ (10 : Byte) ∉ t0) (h1 : (32 : Byte) ∉ t1 ∧ (10 : Byte) ∉ t1)
    (h2 : (32 : Byte) ∉ t2 ∧ (10 : Byte) ∉ t2) (h3 : (32 : Byte) ∉ t3 ∧ (10 : Byte) ∉ t3)
    (h4 : (32 : Byte) ∉ t4 ∧ (10 : Byte) ∉ t4) (h5 : (32 : Byte) ∉ t5 ∧ (10 : Byte) ∉ t5) :
    ReadProxyLine
        (t0 ++ 32 :: (t1 ++ 32 :: (t2 ++ 32 :: (t3 ++ 32 :: (t4 ++ 32 :: t5)))) ++ [13, 10]
          ++ rest)
      = (parseTokens [t0, t1, t2, t3, t4, t5], rest) := by
  have hnl : (10 : Byte) ∉ t0 ++ 32 :: (t1 ++ 32 :: (t2 ++ 32 :: (t3 ++ 32 :: (t4 ++ 32 :: t5)))) := by
    simp only [List.mem_append, List.mem_cons, not_or]
    exact ⟨h0.2, by decide, h1.2, by decide, h2.2, by decide, h3.2, by decide, h4.2,
      by decide, h5.2⟩
  rw [ReadProxyLine_line _ rest hnl]
  simp only [proxySep, Split_cons_token 32 _ _ h0.1, Split_cons_token 32 _ _ h1.1,
    Split_cons_token 32 _ _ h2.1, Split_cons_token 32 _ _ h3.1, Split_cons_token 32 _ _ h4.1,
    Split_token 32 _ h5.1, List.length_cons, List.length_nil]
  rw [if_neg (by omega)]

theorem parsePortNumber_formatNat (n : Nat) (h : n ≤ 65535) :
    parsePortNumber (formatNat n) = .ok (n : Int) := by
  simp only [parsePortNumber, Atoi_formatNat]
  rw [if_pos (by omega)]
  simp only
  rw [if_neg (by omega)]

theorem ReadProxyLine_tcp4_line (a b c d e f g h : Byte) (sp dp : Nat) (rest : List Byte)
    (hsp : sp ≤ 65535) (hdp : dp ≤ 65535) :
    ReadProxyLine
        (str "PROXY TCP4 " ++ dottedDecimal a b c d ++ [32] ++ dottedDecimal e f g h ++ [32]
          ++ formatNat sp ++ [32] ++ formatNat dp ++ [13, 10] ++ rest)
      = (.ok (some
          { Protocol := TCP4
            Source := { IP := IPv4 a b c d, Port := (sp : Int) }
            Destination := { IP := IPv4 e f g h, Port := (dp : Int) } }), rest) := by
  have e1 : str "PROXY TCP4 " ++ dottedDecimal a b c d ++ [32] ++ dottedDecimal e f g h ++ [32]
        ++ formatNat sp ++ [32] ++ formatNat dp ++ [13, 10] ++ rest
      = str "PROXY" ++ 32 :: (TCP4 ++ 32 :: (dottedDecimal a b c d ++ 32 ::
          (dottedDecimal e f g h ++ 32 :: (formatNat sp ++ 32 :: formatNat dp)))) ++ [13, 10]
          ++ rest := by
    have : str "PROXY TCP4 " = str "PROXY" ++ 32 :: (TCP4 ++ [32]) := by decide
    rw [this]
    simp
  have n32 : ¬ (48 ≤ (32 : Byte).val ∧ (32 : Byte).val ≤ 57) := by decide
  have n10 : ¬ (48 ≤ (10 : Byte).val ∧ (10 : Byte).val ≤ 57) := by decide
  rw [e1, ReadProxyLine_six_tokens _ _ _ _ _ _ rest (by decide) (by decide)
    ⟨not_mem_dottedDecimal 32 n32 (by decide) a b c d,
      not_mem_dottedDecimal 10 n10 (by decide) a b c d⟩
    ⟨not_mem_dottedDecimal 32 n32 (by decide) e f g h,
      not_mem_dottedDecimal 10 n10 (by decide) e f g h⟩
    ⟨not_mem_formatNat 32 n32 sp, not_mem_formatNat 10 n10 sp⟩
    ⟨not_mem_formatNat 32 n32 dp, not_mem_formatNat 10 n10 dp⟩]
  simp only [parseTokens, List.getD_cons_succ, List.getD_cons_zero, if_true,
    parseIP_TCP4_dottedDecimal, parsePortNumber_formatNat sp hsp,
    parsePortNumber_formatNat dp hdp]

/-- C13: the line "PROXY TCP4 <src> <dst> <sp> <dp>" followed by CRLF, where src
and dst are the dotted-decimal texts of two IPv4 addresses and sp and dp the
decimal texts of two ports in [0, 65535], is read without error as Protocol
TCP4, Source src with port sp and Destination dst with port dp, the addresses
in 16-byte form; what follows the line is left unread. -/
theorem v1_decode_tcp4 (a b c d e f g h : Byte) (sp dp : Nat) (rest : List Byte)
    (hsp : sp ≤ 65535) (hdp : dp ≤ 65535) :
    ReadProxyLine
        (str "PROXY TCP4 " ++ dottedDecimal a b c d ++ [32] ++ dottedDecimal e f g h ++ [32]
          ++ formatNat sp ++ [32] ++ formatNat dp ++ [13, 10] ++ rest)
      = (.ok (some
          { Protocol := TCP4
            Source := { IP := IPv4 a b c d, Port := (sp : Int) }
            Destination := { IP := IPv4 e f g h, Port := (dp : Int) } }), rest) :=
  ReadProxyLine_tcp4_line a b c d e f g h sp dp rest hsp hdp

/-- Witness for C13: the line "PROXY TCP4 192.168.1.1 10.0.0.1 443 1080". -/
theorem v1_decode_tcp4_witness :
    ReadProxyLine (str "PROXY TCP4 192.168.1.1 10.0.0.1 443 1080\r\n")
      = (.ok (some
          { Protocol := TCP4
            Source := { IP := IPv4 192 168 1 1, Port := 443 }
            Destination := { IP := IPv4 10 0 0 1, Port := 1080 } }), []) :=
  v1_decode_tcp4 192 168 1 1 10 0 0 1 443 1080 [] (by decide) (by decide)

/-! ## Version 1: an unrecognized protocol token -/

theorem protocol_unknown (tok : GoString) (h4 : tok ≠ TCP4) (h6 : tok ≠ TCP6) :
    (if tok = TCP4 then TCP4 else if tok = TCP6 then TCP6 else UNKNOWN) = UNKNOWN := by
  rw [if_neg h4, if_neg h6]

/-- C17, as amended: a CRLF-terminated line of at least 6 tokens whose second
token is neither "TCP4" nor "TCP6", whose third and fourth tokens parse to
addresses that are not IPv4, and whose fifth and sixth tokens are integers in
[0, 65535], is read without error with Protocol UNKNOWN, those addresses and
those ports. -/
theorem v1_unknown_protocol (content rest : List Byte) (sp dp : Int)
    (hnl : (10 : Byte) ∉ content) (h6 : 6 ≤ (Split proxySep content).length)
    (hp : (Split proxySep content).getD 1 [] ≠ TCP4 ∧ (Split proxySep content).getD 1 [] ≠ TCP6)
    (hsrc : ParseIP ((Split proxySep content).getD 2 []) ≠ [] ∧
      To4 (ParseIP ((Split proxySep content).getD 2 [])) = [])
    (hdst : ParseIP ((Split proxySep content).getD 3 []) ≠ [] ∧
      To4 (ParseIP ((Split proxySep content).getD 3 [])) = [])
    (hsp : Atoi ((Split proxySep content).getD 4 []) = some sp ∧ 0 ≤ sp ∧ sp ≤ 65535)
    (hdp : Atoi ((Split proxySep content).getD 5 []) = some dp ∧ 0 ≤ dp ∧ dp ≤ 65535) :
    ReadProxyLine (content ++ [13, 10] ++ rest)
      = (.ok (some
          { Protocol := UNKNOWN
            Source := { IP := ParseIP ((Split proxySep content).getD 2 []), Port := sp }
            Destination := { IP := ParseIP ((Split proxySep content).getD 3 []), Port := dp } }),
        rest) := by
  rw [ReadProxyLine_line content rest hnl, if_neg (Nat.not_lt.mpr h6)]
  have hu : UNKNOWN ≠ TCP6 := by decide
  have e2 := parseIP_not_ipv4 UNKNOWN _ hsrc.1 hsrc.2
  have e3 := parseIP_not_ipv4 UNKNOWN _ hdst.1 hdst.2
  rw [if_neg hu] at e2 e3
  have p4 : parsePortNumber ((Split proxySep content).getD 4 []) = .ok sp := by
    simp only [parsePortNumber, hsp.1]
    rw [if_neg (by omega)]
  have p5 : parsePortNumber ((Split proxySep content).getD 5 []) = .ok dp := by
    simp only [parsePortNumber, hdp.1]
    rw [if_neg (by omega)]
  simp only [parseTokens, protocol_unknown _ hp.1 hp.2, e2, e3, p4, p5]

/-- Witness for C17 as amended: the line "PROXY UDP4 ::1 fe80::1 443 1080". -/
theorem v1_unknown_protocol_witness :
    ReadProxyLine (str "PROXY UDP4 ::1 fe80::1 443 1080" ++ [13, 10] ++ [])
      = (.ok (some
          { Protocol := UNKNOWN
            Source := { IP := [0, 0, 0, 0, 0, 0, 0, 0, 0, 0, 0, 0, 0, 0, 0, 1], Port := 443 }
            Destination :=
              { IP := [0xfe, 0x80, 0, 0, 0, 0, 0, 0, 0, 0, 0, 0, 0, 0, 0, 1], Port := 1080 } }),
        []) :=
  v1_unknown_protocol (str "PROXY UDP4 ::1 fe80::1 443 1080") [] 443 1080 (by decide)
    (by decide) (by decide) (by decide) (by decide) (by decide) (by decide)

/-- C17 as stated fails: the line "PROXY UDP4 192.168.1.1 10.0.0.1 443 1080" has
six tokens, a second token that is neither "TCP4" nor "TCP6", two addresses
that parse and two ports in range, and `ReadProxyLine` rejects it with the
error "got IPV4 address ... for IPV6 proto". -/
theorem v1_unknown_protocol_counterexample :
    (Split proxySep (str "PROXY UDP4 192.168.1.1 10.0.0.1 443 1080"))
        = [str "PROXY", str "UDP4", str "192.168.1.1", str "10.0.0.1", str "443", str "1080"] ∧
      str "UDP4" ≠ TCP4 ∧ str "UDP4" ≠ TCP6 ∧
      ParseIP (str "192.168.1.1") = IPv4 192 168 1 1 ∧
      ParseIP (str "10.0.0.1") = IPv4 10 0 0 1 ∧
      Atoi (str "443") = some 443 ∧ Atoi (str "1080") = some 1080 ∧
      ReadProxyLine (str "PROXY UDP4 192.168.1.1 10.0.0.1 443 1080\r\n")
        = (.error .gotIPV4ForIPV6Proto, []) := by
  decide

/-! ## Version 1: the text of a line -/

theorem IPString_of_To4 (ip : List Byte) (a b c d : Byte) (h : To4 ip = [a, b, c, d]) :
    IPString ip = dottedDecimal a b c d := by
  have hne : ip.length ≠ 0 := by
    intro e
    rw [List.length_eq_zero] at e
    rw [e, To4_nil] at h
    cases h
  simp [IPString, hne, h, IPv4len, dottedDecimal]

theorem IPString_ipv4 (a b c d : Byte) : IPString [a, b, c, d] = dottedDecimal a b c d :=
  IPString_of_To4 _ a b c d (To4_of_length _ rfl)

theorem v1_round_trip_tcp4 (p : ProxyLine) (a b c d e f g h : Byte) (rest : List Byte)
    (hP : p.Protocol = TCP4) (hs : To4 p.Source.IP = [a, b, c, d])
    (hd : To4 p.Destination.IP = [e, f, g, h])
    (hsp : 0 ≤ p.Source.Port ∧ p.Source.Port ≤ 65535)
    (hdp : 0 ≤ p.Destination.Port ∧ p.Destination.Port ≤ 65535) :
    ReadProxyLine (p.String ++ rest)
      = (.ok (some
          { Protocol := TCP4
            Source := { IP := IPv4 a b c d, Port := p.Source.Port }
            Destination := { IP := IPv4 e f g h, Port := p.Destination.Port } }), rest) := by
  have e1 : formatInt p.Source.Port = formatNat p.Source.Port.toNat := by
    rw [formatInt, if_neg (by omega)]
  have e2 : formatInt p.Destination.Port = formatNat p.Destination.Port.toNat := by
    rw [formatInt, if_neg (by omega)]
  have h1 := ReadProxyLine_tcp4_line a b c d e f g h p.Source.Port.toNat
    p.Destination.Port.toNat rest (by omega) (by omega)
  have c1 : ((p.Source.Port.toNat : Nat) : Int) = p.Source.Port := Int.toNat_of_nonneg hsp.1
  have c2 : ((p.Destination.Port.toNat : Nat) : Int) = p.Destination.Port :=
    Int.toNat_of_nonneg hdp.1
  rw [c1, c2] at h1
  have t : str "PROXY TCP4 " = str "PROXY " ++ TCP4 ++ [32] := by decide
  have hline : p.String ++ rest
      = str "PROXY TCP4 " ++ dottedDecimal a b c d ++ [32] ++ dottedDecimal e f g h ++ [32]
          ++ formatNat p.Source.Port.toNat ++ [32] ++ formatNat p.Destination.Port.toNat
          ++ [13, 10] ++ rest := by
    simp only [ProxyLine.String, hP, IPString_of_To4 _ _ _ _ _ hs,
      IPString_of_To4 _ _ _ _ _ hd, e1, e2, t, List.append_assoc]
  rw [hline]
  exact h1

theorem String_content (p : ProxyLine) :
    p.String.take (p.String.length - 2)
      = str "PROXY" ++ 32 :: (p.Protocol ++ 32 :: (IPString p.Source.IP ++ [32]
          ++ IPString p.Destination.IP ++ [32] ++ formatInt p.Source.Port ++ [32]
          ++ formatInt p.Destination.Port)) := by
  have e : p.String
      = (str "PROXY" ++ 32 :: (p.Protocol ++ 32 :: (IPString p.Source.IP ++ [32]
          ++ IPString p.Destination.IP ++ [32] ++ formatInt p.Source.Port ++ [32]
          ++ formatInt p.Destination.Port))) ++ [13, 10] := by
    have : str "PROXY " = str "PROXY" ++ [32] := by decide
    simp [ProxyLine.String, this]
  rw [e]
  exact take_line _

/-- C18: `String` is "PROXY ", the Protocol, the text of the source address, the
text of the destination address and the decimal texts of the two ports,
separated by single spaces and ended by CRLF, whatever the line holds. When
the Protocol holds no space the first two tokens of the output are "PROXY" and
the Protocol, so "UNKNOWN" for the Protocol UNKNOWN. The text of a 4-byte
address is its dotted-decimal text, and the text of a port reads back as the
port. -/
theorem v1_encode_format (p : ProxyLine) :
    p.String
        = str "PROXY " ++ p.Protocol ++ [32] ++ IPString p.Source.IP ++ [32]
          ++ IPString p.Destination.IP ++ [32] ++ formatInt p.Source.Port ++ [32]
          ++ formatInt p.Destination.Port ++ [13, 10] ∧
      ((32 : Byte) ∉ p.Protocol →
        (Split proxySep (p.String.take (p.String.length - 2))).getD 0 [] = str "PROXY" ∧
          (Split proxySep (p.String.take (p.String.length - 2))).getD 1 [] = p.Protocol) ∧
      (p.Protocol = UNKNOWN →
        (Split proxySep (p.String.take (p.String.length - 2))).getD 1 [] = str "UNKNOWN") ∧
      (∀ a b c d : Byte, p.Source.IP = [a, b, c, d] →
        IPString p.Source.IP = dottedDecimal a b c d) ∧
      (0 ≤ p.Source.Port → formatInt p.Source.Port = formatNat p.Source.Port.toNat) ∧
      (-9223372036854775808 ≤ p.Source.Port ∧ p.Source.Port ≤ 9223372036854775807 →
        Atoi (formatInt p.Source.Port) = some p.Source.Port) := by
  have hsplit : (32 : Byte) ∉ p.Protocol →
      Split proxySep (p.String.take (p.String.length - 2))
        = str "PROXY" :: p.Protocol :: Split proxySep (IPString p.Source.IP ++ [32]
          ++ IPString p.Destination.IP ++ [32] ++ formatInt p.Source.Port ++ [32]
          ++ formatInt p.Destination.Port) := by
    intro h
    rw [String_content, proxySep, Split_cons_token 32 _ _ (by decide),
      Split_cons_token 32 _ _ h]
  refine ⟨rfl, ?_, ?_, ?_, ?_, ?_⟩
  · intro h
    rw [hsplit h]
    exact ⟨rfl, rfl⟩
  · intro h
    have h32 : (32 : Byte) ∉ p.Protocol := by rw [h]; decide
    rw [hsplit h32, h]
    rfl
  · intro a b c d h
    rw [h, IPString_ipv4]
  · intro h
    rw [formatInt, if_neg (by omega)]
  · intro h
    rw [Atoi_formatInt, if_pos h]

/-- Witness for C18: the text of an UNKNOWN line from 192.168.1.1 to ::1. -/
theorem v1_encode_format_witness :
    ProxyLine.String
        { Protocol := UNKNOWN
          Source := { IP := [192, 168, 1, 1], Port := 443 }
          Destination := { IP := [0, 0, 0, 0, 0, 0, 0, 0, 0, 0, 0, 0, 0, 0, 0, 1], Port := 1080 } }
      = str "PROXY UNKNOWN 192.168.1.1 ::1 443 1080\r\n" :=
  (v1_encode_format
    { Protocol := UNKNOWN
      Source := { IP := [192, 168, 1, 1], Port := 443 }
      Destination := { IP := [0, 0, 0, 0, 0, 0, 0, 0, 0, 0, 0, 0, 0, 0, 0, 1], Port := 1080 } }).1

end Multiplexer
